import Mathlib

/-!
Verification development for the video-call media session server
(room/peer registry with host migration, signaling handlers, and the
per-peer recording pipeline).

The definitions below are a shallow embedding of the JavaScript source:
JS `Map`s (insertion-ordered) become association lists, timestamps become
naturals, and external effects (mediasoup engine, FFmpeg subprocesses,
the filesystem) become explicit oracle parameters.
-/

namespace VideoCall

/-! ## Insertion-ordered maps (JS `Map` semantics)

A JS `Map` keeps entries in insertion order; `set` on an existing key
updates the value in place (keeping the entry's position), otherwise
appends a new entry at the end; `delete` removes the entry.  We model a
`Map` as an association list iterated in list order. -/

/-- `Map.get`. -/
def mapGet {α : Type} : List (String × α) → String → Option α
  | [], _ => none
  | p :: rest, k => if p.1 = k then some p.2 else mapGet rest k

/-- `Map.has`. -/
def mapHas {α : Type} (m : List (String × α)) (k : String) : Bool :=
  (mapGet m k).isSome

/-- `Map.set`. -/
def mapSet {α : Type} : List (String × α) → String → α → List (String × α)
  | [], k, v => [(k, v)]
  | p :: rest, k, v => if p.1 = k then (k, v) :: rest else p :: mapSet rest k v

/-- `Map.delete`. -/
def mapDelete {α : Type} : List (String × α) → String → List (String × α)
  | [], _ => []
  | p :: rest, k => if p.1 = k then mapDelete rest k else p :: mapDelete rest k

/-! ## Data model (`src/services/room.service.js`)

A mediasoup producer/consumer kind is `'audio'` or `'video'`. -/

inductive MKind where
  | audio
  | video
deriving DecidableEq, Repr

/-- A producer as far as the recording and signaling logic inspects it:
its media kind (the engine-side RTP state stays outside the embedding). -/
structure Producer where
  kind : MKind
deriving DecidableEq, Repr

/-- A consumer stored in a peer's consumer map by the `consume` handler
(`socket.handler.js`): id, consumed producer, kind and paused flag. -/
structure SConsumer where
  producerId : String
  kind : MKind
  paused : Bool
deriving DecidableEq, Repr

/-- Peer data as built in `RoomManager.joinRoom` (room.service.js:181-189):
username, per-peer transport/producer/consumer maps, join timestamp,
recorder flag, and the `isHost` flag set at join time. -/
structure Peer where
  username : String
  transports : List (String × Unit)
  producers : List (String × Producer)
  consumers : List (String × SConsumer)
  joinedAt : Nat
  isRecorder : Bool
  isHost : Bool
deriving DecidableEq, Repr

/-- Room state as created in `getOrCreateRoom` (room.service.js:61-83),
restricted to the fields the session/topology logic reads:
`password`, `hostId`, the insertion-ordered peer map, the session
counter, and whether the inactivity-cleanup timer is pending
(`room.cleanupTimeout !== null`). -/
structure Room where
  password : Option String
  hostId : Option String
  peers : List (String × Peer)
  sessionId : String
  sessionNumber : Nat
  cleanupPending : Bool
deriving DecidableEq, Repr

/-- A freshly created room (room.service.js:61-83): no peers, no host,
no cleanup timer. -/
def freshRoom (password : Option String) (now : Nat) : Room :=
  { password := password
    hostId := none
    peers := []
    sessionId := s!"SESS-{now}"
    sessionNumber := 1
    cleanupPending := false }

/-- `startNewSession` (room.service.js:99-123): bumps the session number
and replaces the session id; collaborative state is reset (out of scope
here). -/
def startNewSession (room : Room) (now : Nat) : Room :=
  { room with
      sessionId := s!"SESS-{now}"
      sessionNumber := room.sessionNumber + 1 }

/-- The password guard in `joinRoom` (room.service.js:198):
`room.password && room.password !== password`.  An empty stored password
is falsy in JS, and the supplied password may be absent (`undefined`). -/
def passwordMismatch (roomPw : Option String) (supplied : Option String) :
    Bool :=
  match roomPw with
  | none => false
  | some pw => pw ≠ "" && supplied ≠ some pw

/-- `RoomManager.joinRoom` (room.service.js:178-264) on an existing room.
Returns the updated room paired with either an error (the thrown
`'Invalid password'`) or the `isHost` flag of the join reply.  Mirrors the
source order: the pending cleanup timer is cleared (lines 193-196) before
the password check (line 198); a new session starts when the room was
empty (line 202); host assignment (lines 206-209) precedes the peer-map
insert (line 211). -/
def joinRoom (room : Room) (peerId username : String)
    (password : Option String) (recorder : Bool) (now : Nat) :
    Room × Except String Bool :=
  let room := { room with cleanupPending := false }
  if passwordMismatch room.password password then
    (room, .error "Invalid password")
  else
    let room := if room.peers = [] then startNewSession room now else room
    let isHost : Bool := room.hostId.isNone && !recorder
    let room := if isHost then { room with hostId := some peerId } else room
    let peer : Peer :=
      { username := if recorder then "System Recorder" else username
        transports := []
        producers := []
        consumers := []
        joinedAt := now
        isRecorder := recorder
        isHost := isHost }
    ({ room with peers := mapSet room.peers peerId peer }, .ok isHost)

/-! ## Host migration (`RoomManager.handleDisconnect`, room.service.js:286-303)

The source scans the remaining peer map keeping the oldest non-recorder
peer seen so far (`oldestJoinTime` starts at `Infinity`, strict `<`
comparison, so ties keep the earlier entry). -/

/-- The migration loop state: `none` models `oldestJoinTime = Infinity`,
`some (id, t)` models `oldestPeerId = id, oldestJoinTime = t`.  The update
guard is the source's `!peer.isRecorder && peer.joinedAt < oldestJoinTime`
(with every timestamp `< Infinity` in the `none` state). -/
def scanHost (peers : List (String × Peer)) (acc : Option (String × Nat)) :
    Option (String × Nat) :=
  match peers, acc with
  | [], acc => acc
  | p :: rest, none =>
    scanHost rest
      (if p.2.isRecorder = false then some (p.1, p.2.joinedAt) else none)
  | p :: rest, some (q, t) =>
    scanHost rest
      (if p.2.isRecorder = false ∧ p.2.joinedAt < t then
        some (p.1, p.2.joinedAt)
      else some (q, t))

/-- The new host the migration loop computes over the surviving peers. -/
def codeNewHost (peers : List (String × Peer)) : Option String :=
  (scanHost peers none).map Prod.fst

/-- `RoomManager.handleDisconnect` restricted to one room
(room.service.js:266-359): removes the peer, runs host migration when the
removed peer was host, and arms the inactivity-cleanup timer when the
room drained (line 348). -/
def handleDisconnect (room : Room) (socketId : String) : Room :=
  if mapHas room.peers socketId then
    let peers := mapDelete room.peers socketId
    let room := { room with peers := peers }
    let room :=
      if room.hostId = some socketId then
        { room with
            hostId := if peers = [] then none else codeNewHost peers }
      else room
    if peers = [] then { room with cleanupPending := true } else room
  else room


/-! ### Characterizing the migration loop -/

/-- The migration scan with the recorder test stripped out; used only to
factor the correctness proof of `scanHost`. -/
def scanMin (peers : List (String × Peer)) (acc : Option (String × Nat)) :
    Option (String × Nat) :=
  match peers, acc with
  | [], acc => acc
  | p :: rest, none => scanMin rest (some (p.1, p.2.joinedAt))
  | p :: rest, some (q, t) =>
    scanMin rest
      (if p.2.joinedAt < t then some (p.1, p.2.joinedAt) else some (q, t))

/-- The non-recorder peers of a peer list, in insertion order. -/
def nonRecorders (peers : List (String × Peer)) : List (String × Peer) :=
  peers.filter (fun p => !p.2.isRecorder)

/-- The earliest-joined entry of a peer list, first occurrence winning
ties; `none` only on the empty list. -/
def firstMin (peers : List (String × Peer)) : Option (String × Nat) :=
  match peers with
  | [] => none
  | p :: rest =>
    match firstMin rest with
    | none => some (p.1, p.2.joinedAt)
    | some (q, t) =>
      if p.2.joinedAt ≤ t then some (p.1, p.2.joinedAt) else some (q, t)

/-- What the claim's words describe: among the non-recorder peers, the
one with the earliest join timestamp, ties broken by peer-map insertion
order (`none` when no non-recorder peer exists). -/
def specNewHost (peers : List (String × Peer)) : Option String :=
  ((nonRecorders peers).find? (fun p =>
      (nonRecorders peers).all
        (fun q => p.2.joinedAt ≤ q.2.joinedAt))).map Prod.fst

/-! ## Reported peer list (`socket.handler.js:33-37`)

The `join-room` callback sends the current peers to the joining client:
socket id, username, and the stored `isHost` flag. -/

/-- The peers list reported to a joining client. -/
def reportedPeers (room : Room) : List (String × String × Bool) :=
  room.peers.map (fun e => (e.1, e.2.username, e.2.isHost))

/-! ## Room lifecycle as a transition system

`joinRoom` / `handleDisconnect` reach a room only through the registry
(`this.rooms`), so they are no-ops once the room has been deleted; the
inactivity timer callback (room.service.js:348-354) closes the router and
deletes the room only when it still finds the room empty. -/

/-- A room's lifecycle state: the room object, whether it is still in the
registry, whether its router has been closed, and how many times
`router.close()` ran. -/
structure LifeState where
  room : Room
  inRegistry : Bool
  routerClosed : Bool
  closeCount : Nat
deriving DecidableEq, Repr

/-- Scheduler events touching one room: a join, a disconnect, and the
inactivity timer firing. -/
inductive Ev where
  | join (peerId username : String) (password : Option String)
      (recorder : Bool) (now : Nat)
  | disc (peerId : String)
  | fire
deriving DecidableEq, Repr

/-- One event step.  Joins and disconnects act only while the room is in
the registry.  A firing timer (room.service.js:348-354) is consumed; it
closes the router and removes the room only if the room is still empty. -/
def lifeStep (s : LifeState) (e : Ev) : LifeState :=
  match e with
  | .join pid uname pw rec now =>
    if s.inRegistry then
      { s with room := (joinRoom s.room pid uname pw rec now).1 }
    else s
  | .disc pid =>
    if s.inRegistry then { s with room := handleDisconnect s.room pid } else s
  | .fire =>
    if s.room.cleanupPending then
      let room := { s.room with cleanupPending := false }
      if room.peers = [] then
        { room := room, inRegistry := false, routerClosed := true,
          closeCount := s.closeCount + 1 }
      else { s with room := room }
    else s

/-- Run a list of events. -/
def lifeRun (s : LifeState) (evs : List Ev) : LifeState :=
  evs.foldl lifeStep s

/-- The lifecycle state of a freshly created room. -/
def initLife (password : Option String) (now : Nat) : LifeState :=
  { room := freshRoom password now
    inRegistry := true
    routerClosed := false
    closeCount := 0 }

/-- The inductive invariant of the room lifecycle. -/
def LifeInv (s : LifeState) : Prop :=
  (s.routerClosed = false → s.closeCount = 0) ∧
  (s.routerClosed = true →
    s.closeCount = 1 ∧ s.inRegistry = false ∧ s.room.peers = [] ∧
      s.room.cleanupPending = false) ∧
  (s.inRegistry = false → s.routerClosed = true)

/-! ## Recording pipeline (`src/services/recording.service.js`) -/

/-- External effects of the recording pipeline, determinized as oracles:
whether the FFmpeg child spawned for a peer is still alive after the
fixed initialization wait (recording.service.js:264), and the size of a
file on disk at stop time (`fs.existsSync` + `fs.statSync`, lines
374-375; `none` = the file does not exist). -/
structure RecEnv where
  ffmpegAliveAfterInit : String → Bool
  fileSize : String → Option Nat

/-- Per-peer capture state (recording.service.js:88-97, 320), keeping the
fields `stopRecording` reads. -/
structure PeerRecording where
  username : String
  hasAudio : Bool
  hasVideo : Bool
  outputPath : String
deriving DecidableEq, Repr

/-- A RecordingSession (recording.service.js:60-71).  Capture transports
and consumers are keyed by id; the value records the peer whose producer
they capture. -/
structure RecSession where
  recordingId : String
  roomId : String
  startedAt : Nat
  startedBy : String
  transports : List (String × String)
  consumers : List (String × String)
  processes : List (String × Unit)
  peerRecordings : List (String × PeerRecording)
  transcripts : List String
deriving DecidableEq, Repr

/-- The module-level `recordingSessions` map, keyed by room id. -/
def RecState : Type := List (String × RecSession)

/-- Id of the capture `PlainTransport` created for one producer of one
peer (engine-generated and unique in the source). -/
def captureTransportId (peerId producerId : String) : String :=
  s!"ct-{peerId}-{producerId}"

/-- Id of the recording consumer created for one producer of one peer. -/
def captureConsumerId (peerId producerId : String) : String :=
  s!"cc-{peerId}-{producerId}"

/-- `safeUsername` (recording.service.js:139): every non-alphanumeric
character replaced with an underscore. -/
def safeUsername (u : String) : String :=
  u.map (fun c => if c.isAlphanum then c else '_')

/-- Output path (recording.service.js:140 and 215-216): a `.webm` file,
renamed to `.opus` when the capture turned out audio-only. -/
def outputPathFor (recordingId username peerId : String)
    (audioOnly : Bool) : String :=
  s!"{recordingId}-{safeUsername username}-{peerId.take 8}" ++
    (if audioOnly then ".opus" else ".webm")

/-- One iteration of the producer loop of `startRecordingForPeer`
(recording.service.js:109-132): create a capture transport and a paused
recording consumer for this producer, register both in the session maps,
and note whether an audio / a video leg is now present. -/
def captureStep (peerId : String) (acc : RecSession × Bool × Bool)
    (pr : String × Producer) : RecSession × Bool × Bool :=
  let s1 := { acc.1 with
    transports :=
      mapSet acc.1.transports (captureTransportId peerId pr.1) peerId
    consumers :=
      mapSet acc.1.consumers (captureConsumerId peerId pr.1) peerId }
  match pr.2.kind with
  | .audio => (s1, true, acc.2.2)
  | .video => (s1, acc.2.1, true)

/-- `startRecordingForPeer` (recording.service.js:84-327).  A peer with
no producers is skipped before any transport is created (lines 102-105).
Otherwise one capture transport and one paused consumer are created per
producer and registered in the session maps (lines 109-132), the FFmpeg
child is spawned and registered (lines 227-232), and — unless the child
died during the initialization wait (line 264) — the per-peer record is
stored (line 320). -/
def startRecordingForPeer (env : RecEnv) (peerId : String) (peer : Peer)
    (s : RecSession) : RecSession :=
  if peer.producers = [] then s
  else
    let r := peer.producers.foldl (captureStep peerId) (s, false, false)
    let s1 := r.1
    let hasAudio := r.2.1
    let hasVideo := r.2.2
    if hasAudio = false ∧ hasVideo = false then s1
    else
      let outPath :=
        outputPathFor s1.recordingId peer.username peerId
          (hasAudio && !hasVideo)
      let s2 := { s1 with processes := mapSet s1.processes peerId () }
      if env.ffmpegAliveAfterInit peerId = false then s2
      else
        { s2 with
            peerRecordings := mapSet s2.peerRecordings peerId
              { username := peer.username
                hasAudio := hasAudio
                hasVideo := hasVideo
                outputPath := outPath } }

/-- One iteration of the peer loop of `startRecording`
(recording.service.js:75-78): recorder peers are skipped, the rest go
through `startRecordingForPeer`. -/
def startStep (env : RecEnv) (s : RecSession) (pp : String × Peer) :
    RecSession :=
  if pp.2.isRecorder then s else startRecordingForPeer env pp.1 pp.2 s

/-- `startRecording` (recording.service.js:47-82).  Unknown room and
already-recording are rejected before any session is created; otherwise
the session is registered and every non-recorder peer goes through
`startRecordingForPeer`. -/
def startRecording (env : RecEnv) (sessions : RecState)
    (roomId startedBy : String) (rooms : List (String × Room)) (now : Nat) :
    RecState × Except String RecSession :=
  match mapGet rooms roomId with
  | none => (sessions, .error "Room not found")
  | some room =>
    if mapHas sessions roomId then
      (sessions, .error "Recording already in progress")
    else
      let session0 : RecSession :=
        { recordingId := s!"{roomId}-{now}"
          roomId := roomId
          startedAt := now
          startedBy := startedBy
          transports := []
          consumers := []
          processes := []
          peerRecordings := []
          transcripts := [] }
      let session := room.peers.foldl (startStep env) session0
      (mapSet sessions roomId session, .ok session)

/-- An entry of the finalized file list (recording.service.js:385-391). -/
structure FileEntry where
  peerId : String
  username : String
  file : String
  size : Nat
deriving DecidableEq, Repr

/-- The sidecar metadata document (recording.service.js:399-407). -/
structure RecMetadata where
  recordingId : String
  roomId : String
  startedAt : Nat
  endedAt : Nat
  startedBy : String
  files : List FileEntry
  transcripts : List String
deriving DecidableEq, Repr

/-- The value `stopRecording` resolves with (recording.service.js:426). -/
structure StopResult where
  recordingId : String
  files : List FileEntry
  metadata : RecMetadata
deriving DecidableEq, Repr

/-- `stopRecording` (recording.service.js:329-427).  With no session the
call throws.  The file loop (lines 371-395) pushes every peer recording
whose output file exists, with its stat size — there is no minimum-size
test — and skips missing files with a log line.  The session is removed
from the map at the end (line 423). -/
def stopRecording (env : RecEnv) (sessions : RecState) (roomId : String)
    (now : Nat) : RecState × Except String StopResult :=
  match mapGet sessions roomId with
  | none => (sessions, .error "No recording in progress for this room")
  | some session =>
    let files := session.peerRecordings.filterMap (fun pr =>
      match env.fileSize pr.2.outputPath with
      | some size =>
        some { peerId := pr.1
               username := pr.2.username
               file := pr.2.outputPath
               size := size }
      | none => none)
    let metadata : RecMetadata :=
      { recordingId := session.recordingId
        roomId := roomId
        startedAt := session.startedAt
        endedAt := now
        startedBy := session.startedBy
        files := files
        transcripts := session.transcripts }
    (mapDelete sessions roomId,
      .ok { recordingId := session.recordingId
            files := files
            metadata := metadata })

/-! ## Combined-mode recording variant (`src/unnamed/part_004`) -/

/-- Global concurrent-recording cap of the combined-mode recording
variant (src/unnamed/part_004:9). -/
def MAX_CONCURRENT_RECORDINGS : Nat := 5

/-- `startRecording` of the combined-mode variant
(src/unnamed/part_004:48-82), up to the registration of the session
record: the capacity check (lines 51-53) precedes the room lookup and
the per-room duplicate check.  The combined per-peer capture pipeline is
not inspected by any claim and is elided; the outcome carries the new
session map and either the thrown message or the recording id. -/
def startRecordingCombined (sessions : RecState) (roomId startedBy : String)
    (rooms : List (String × Room)) (now : Nat) :
    RecState × Except String String :=
  if MAX_CONCURRENT_RECORDINGS ≤ sessions.length then
    (sessions,
      .error "Server recording capacity reached. Please try again later.")
  else
    match mapGet rooms roomId with
    | none => (sessions, .error "Room not found")
    | some _ =>
      if mapHas sessions roomId then
        (sessions, .error "Recording already in progress")
      else
        let session0 : RecSession :=
          { recordingId := s!"{roomId}-{now}"
            roomId := roomId
            startedAt := now
            startedBy := startedBy
            transports := []
            consumers := []
            processes := []
            peerRecordings := []
            transcripts := [] }
        (mapSet sessions roomId session0, .ok s!"{roomId}-{now}")

/-! ## Signaling handlers (`src/services/socket.handler.js`) -/

/-- Engine oracle for the `consume` handler: `router.canConsume`
(socket.handler.js:304) over a producer id and the client's RTP
capabilities, and the kind of the consumer the engine would create. -/
structure SigEnv where
  canConsume : String → String → Bool
  producerKind : String → MKind

/-- A callback reply: a success payload or a structured
`{error: message}`.  A handler returning `none` never invoked the
callback at all. -/
inductive Reply (ok : Type) where
  | payload (x : ok)
  | error (msg : String)
deriving DecidableEq, Repr

/-- `Array.from(roomManager.rooms.values()).find(r =>
r.peers.has(socket.id))` (socket.handler.js:271, 296, 330). -/
def findRoomOfSocket (rooms : List (String × Room)) (socketId : String) :
    Option (String × Room) :=
  rooms.find? (fun r => mapHas r.2.peers socketId)

/-- The `consume` success payload (socket.handler.js:316-321). -/
structure ConsumeOk where
  id : String
  producerId : String
  kind : MKind
deriving DecidableEq, Repr

/-- The `consume` handler (socket.handler.js:294-326): locates the room
holding the socket, the peer and the transport; replies
`Transport not found` / `Cannot consume producer` on the guard paths;
otherwise creates the consumer with `paused: false` (line 311), stores
it in the peer's consumer map and replies with its descriptor. -/
def consumeHandler (env : SigEnv) (rooms : List (String × Room))
    (socketId transportId producerId rtpCapabilities newConsumerId :
      String) :
    List (String × Room) × Option (Reply ConsumeOk) :=
  match findRoomOfSocket rooms socketId with
  | none => (rooms, some (.error "Transport not found"))
  | some (roomId, room) =>
    match mapGet room.peers socketId with
    | none => (rooms, some (.error "Transport not found"))
    | some peer =>
      match mapGet peer.transports transportId with
      | none => (rooms, some (.error "Transport not found"))
      | some _ =>
        if env.canConsume producerId rtpCapabilities = false then
          (rooms, some (.error "Cannot consume producer"))
        else
          let consumer : SConsumer :=
            { producerId := producerId
              kind := env.producerKind producerId
              paused := false }
          let peer' :=
            { peer with
                consumers := mapSet peer.consumers newConsumerId consumer }
          let room' :=
            { room with peers := mapSet room.peers socketId peer' }
          (mapSet rooms roomId room',
            some (.payload
              { id := newConsumerId
                producerId := producerId
                kind := consumer.kind }))

/-- The `resume-consumer` handler (socket.handler.js:328-342): when the
consumer is found it is resumed and the callback acknowledges; the
`if (consumer)` guard has no else branch, so an unknown consumer id
leaves the callback uninvoked. -/
def resumeConsumerHandler (rooms : List (String × Room))
    (socketId consumerId : String) :
    List (String × Room) × Option (Reply Unit) :=
  match findRoomOfSocket rooms socketId with
  | none => (rooms, none)
  | some (roomId, room) =>
    match mapGet room.peers socketId with
    | none => (rooms, none)
    | some peer =>
      match mapGet peer.consumers consumerId with
      | none => (rooms, none)
      | some c =>
        let c' := { c with paused := false }
        let peer' :=
          { peer with consumers := mapSet peer.consumers consumerId c' }
        let room' := { room with peers := mapSet room.peers socketId peer' }
        (mapSet rooms roomId room', some (.payload ()))

/-- The `produce` success payload (socket.handler.js:279). -/
structure ProduceOk where
  id : String
deriving DecidableEq, Repr

/-- The `produce` handler (socket.handler.js:269-292): when the transport
is found the producer is created, stored, and the callback receives its
id; the `if (transport)` guard has no else branch, so an unknown
transport id (or a socket in no room) leaves the callback uninvoked. -/
def produceHandler (rooms : List (String × Room))
    (socketId transportId : String) (kind : MKind)
    (newProducerId : String) :
    List (String × Room) × Option (Reply ProduceOk) :=
  match findRoomOfSocket rooms socketId with
  | none => (rooms, none)
  | some (roomId, room) =>
    match mapGet room.peers socketId with
    | none => (rooms, none)
    | some peer =>
      match mapGet peer.transports transportId with
      | none => (rooms, none)
      | some _ =>
        let peer' :=
          { peer with
              producers := mapSet peer.producers newProducerId
                { kind := kind } }
        let room' := { room with peers := mapSet room.peers socketId peer' }
        (mapSet rooms roomId room', some (.payload { id := newProducerId }))

/-- Peer literal builder for concrete scenarios. -/
def mkPeer (username : String) (joinedAt : Nat)
    (isRecorder isHost : Bool) : Peer :=
  { username := username
    transports := []
    producers := []
    consumers := []
    joinedAt := joinedAt
    isRecorder := isRecorder
    isHost := isHost }


/-- Concrete four-peer room: host, one recorder, two tied joiners. -/
def c1Room : Room :=
  ⟨none, some "a",
    [("a", mkPeer "alice" 1 false true),
     ("r", mkPeer "rec" 0 true false),
     ("b", mkPeer "bob" 3 false false),
     ("c", mkPeer "carol" 3 false false)],
    "S", 1, false⟩

/-! ## Lemmas -/

theorem mapGet_mapSet_self {α : Type} (m : List (String × α)) (k : String)
    (v : α) : mapGet (mapSet m k v) k = some v := by
  induction m with
  | nil => simp [mapSet, mapGet]
  | cons p rest ih =>
    by_cases h : p.1 = k <;> simp [mapSet, mapGet, h, ih]

theorem mapGet_mapSet_ne {α : Type} (m : List (String × α)) (k k' : String)
    (v : α) (h : k' ≠ k) : mapGet (mapSet m k v) k' = mapGet m k' := by
  induction m with
  | nil => simp [mapSet, mapGet, Ne.symm h]
  | cons p rest ih =>
    by_cases hp : p.1 = k
    · subst hp
      simp [mapSet, mapGet, Ne.symm h]
    · simp only [mapSet, if_neg hp]
      by_cases hp' : p.1 = k' <;> simp [mapGet, hp', ih]

theorem mapGet_mapDelete_self {α : Type} (m : List (String × α))
    (k : String) : mapGet (mapDelete m k) k = none := by
  induction m with
  | nil => simp [mapDelete, mapGet]
  | cons p rest ih =>
    by_cases h : p.1 = k <;> simp [mapDelete, mapGet, h, ih]

theorem mapGet_mapDelete_ne {α : Type} (m : List (String × α))
    (k k' : String) (h : k' ≠ k) :
    mapGet (mapDelete m k) k' = mapGet m k' := by
  induction m with
  | nil => simp [mapDelete]
  | cons p rest ih =>
    by_cases hp : p.1 = k
    · subst hp
      simp [mapDelete, mapGet, Ne.symm h, ih]
    · simp only [mapDelete, if_neg hp]
      by_cases hp' : p.1 = k' <;> simp [mapGet, hp', ih]

theorem mem_mapDelete_key_ne {α : Type} {m : List (String × α)}
    {k : String} {e : String × α} (h : e ∈ mapDelete m k) : e.1 ≠ k := by
  induction m with
  | nil => simp [mapDelete] at h
  | cons p rest ih =>
    by_cases hp : p.1 = k
    · simp only [mapDelete, if_pos hp] at h
      exact ih h
    · simp only [mapDelete, if_neg hp, List.mem_cons] at h
      rcases h with h | h
      · subst h; exact hp
      · exact ih h

theorem mem_of_mem_mapDelete {α : Type} {m : List (String × α)}
    {k : String} {e : String × α} (h : e ∈ mapDelete m k) : e ∈ m := by
  induction m with
  | nil => simp [mapDelete] at h
  | cons p rest ih =>
    by_cases hp : p.1 = k
    · simp only [mapDelete, if_pos hp] at h
      exact List.mem_cons_of_mem _ (ih h)
    · simp only [mapDelete, if_neg hp, List.mem_cons] at h
      rcases h with h | h
      · exact h ▸ List.mem_cons_self _ _
      · exact List.mem_cons_of_mem _ (ih h)

theorem scanHost_eq_scanMin_filter (peers : List (String × Peer))
    (acc : Option (String × Nat)) :
    scanHost peers acc = scanMin (nonRecorders peers) acc := by
  induction peers generalizing acc with
  | nil => cases acc <;> rfl
  | cons p rest ih =>
    by_cases hrec : p.2.isRecorder
    · have hflt : (!p.2.isRecorder) = false := by simp [hrec]
      cases acc with
      | none =>
        simp [scanHost, nonRecorders, List.filter_cons, hflt, hrec, ih]
      | some qt =>
        obtain ⟨q, t⟩ := qt
        simp [scanHost, nonRecorders, List.filter_cons, hflt, hrec, ih]
    · have hflt : (!p.2.isRecorder) = true := by simp [hrec]
      cases acc with
      | none =>
        simp [scanHost, scanMin, nonRecorders, List.filter_cons, hflt,
          hrec, ih]
      | some qt =>
        obtain ⟨q, t⟩ := qt
        by_cases hlt : p.2.joinedAt < t <;>
          simp [scanHost, scanMin, nonRecorders, List.filter_cons, hflt,
            hrec, hlt, ih]

theorem firstMin_eq_none_iff (l : List (String × Peer)) :
    firstMin l = none ↔ l = [] := by
  cases l with
  | nil => simp [firstMin]
  | cons p rest =>
    simp only [firstMin]
    cases firstMin rest with
    | none => simp
    | some qt =>
      obtain ⟨q, t⟩ := qt
      by_cases h : p.2.joinedAt ≤ t <;> simp [h]

theorem firstMin_le {l : List (String × Peer)} {q : String} {t : Nat}
    (h : firstMin l = some (q, t)) :
    ∀ r ∈ l, t ≤ r.2.joinedAt := by
  induction l generalizing q t with
  | nil => simp [firstMin] at h
  | cons p rest ih =>
    simp only [firstMin] at h
    cases hfm : firstMin rest with
    | none =>
      rw [hfm] at h
      simp only [Option.some.injEq, Prod.mk.injEq] at h
      obtain ⟨h1, h2⟩ := h
      have hrest := (firstMin_eq_none_iff rest).mp hfm
      subst hrest
      intro r hr
      simp only [List.mem_singleton] at hr
      subst hr
      omega
    | some qt =>
      obtain ⟨q', t'⟩ := qt
      rw [hfm] at h
      have hih := ih hfm
      intro r hr
      by_cases hle : p.2.joinedAt ≤ t'
      · simp only [if_pos hle, Option.some.injEq, Prod.mk.injEq] at h
        obtain ⟨h1, h2⟩ := h
        rcases List.mem_cons.mp hr with hrp | hr'
        · subst hrp; omega
        · have := hih r hr'; omega
      · simp only [if_neg hle, Option.some.injEq, Prod.mk.injEq] at h
        obtain ⟨h1, h2⟩ := h
        rcases List.mem_cons.mp hr with hrp | hr'
        · subst hrp; omega
        · have := hih r hr'; omega

theorem firstMin_mem {l : List (String × Peer)} {q : String} {t : Nat}
    (h : firstMin l = some (q, t)) :
    ∃ r ∈ l, r.1 = q ∧ r.2.joinedAt = t := by
  induction l generalizing q t with
  | nil => simp [firstMin] at h
  | cons p rest ih =>
    simp only [firstMin] at h
    cases hfm : firstMin rest with
    | none =>
      rw [hfm] at h
      simp only [Option.some.injEq, Prod.mk.injEq] at h
      obtain ⟨h1, h2⟩ := h
      exact ⟨p, List.mem_cons_self _ _, h1, h2⟩
    | some qt =>
      obtain ⟨q', t'⟩ := qt
      rw [hfm] at h
      by_cases hle : p.2.joinedAt ≤ t'
      · simp only [if_pos hle, Option.some.injEq, Prod.mk.injEq] at h
        obtain ⟨h1, h2⟩ := h
        exact ⟨p, List.mem_cons_self _ _, h1, h2⟩
      · simp only [if_neg hle, Option.some.injEq, Prod.mk.injEq] at h
        obtain ⟨h1, h2⟩ := h
        obtain ⟨r, hr, hrq, hrt⟩ := ih hfm
        exact ⟨r, List.mem_cons_of_mem _ hr, h1 ▸ hrq, h2 ▸ hrt⟩

theorem scanMin_some (l : List (String × Peer)) (id₀ : String) (t₀ : Nat) :
    scanMin l (some (id₀, t₀)) =
      match firstMin l with
      | none => some (id₀, t₀)
      | some (q, t) => if t < t₀ then some (q, t) else some (id₀, t₀) := by
  induction l generalizing id₀ t₀ with
  | nil => simp [scanMin, firstMin]
  | cons p rest ih =>
    simp only [scanMin]
    by_cases hlt : p.2.joinedAt < t₀
    · rw [if_pos hlt, ih]
      cases hfm : firstMin rest with
      | none => simp [firstMin, hfm, hlt]
      | some qt =>
        obtain ⟨q, t⟩ := qt
        simp only [firstMin, hfm]
        by_cases h1 : t < p.2.joinedAt
        · have h2 : ¬ p.2.joinedAt ≤ t := by omega
          have h3 : t < t₀ := by omega
          simp [h1, h2, h3]
        · have h2 : p.2.joinedAt ≤ t := by omega
          simp [h1, h2, hlt]
    · rw [if_neg hlt, ih]
      cases hfm : firstMin rest with
      | none => simp [firstMin, hfm, hlt]
      | some qt =>
        obtain ⟨q, t⟩ := qt
        simp only [firstMin, hfm]
        by_cases h1 : p.2.joinedAt ≤ t
        · have h2 : ¬ t < t₀ := by omega
          have h3 : ¬ p.2.joinedAt < t₀ := by omega
          simp [h1, h2, h3]
        · have h2 : t < p.2.joinedAt := by omega
          by_cases h3 : t < t₀ <;> simp [h1, h2, h3]

theorem scanMin_none_eq_firstMin (l : List (String × Peer)) :
    scanMin l none = firstMin l := by
  cases l with
  | nil => rfl
  | cons p rest =>
    show scanMin rest (some (p.1, p.2.joinedAt)) = _
    rw [scanMin_some]
    cases hfm : firstMin rest with
    | none => simp [firstMin, hfm]
    | some qt =>
      obtain ⟨q, t⟩ := qt
      simp only [firstMin, hfm]
      by_cases h : t < p.2.joinedAt
      · have h' : ¬ p.2.joinedAt ≤ t := by omega
        simp [h, h']
      · have h' : p.2.joinedAt ≤ t := by omega
        simp [h, h']

theorem find?_congr_mem {β : Type} {l : List β} {p q : β → Bool}
    (h : ∀ x ∈ l, p x = q x) : l.find? p = l.find? q := by
  induction l with
  | nil => simp
  | cons a rest ih =>
    have ha := h a (List.mem_cons_self _ _)
    rw [List.find?_cons, List.find?_cons, ha]
    cases q a with
    | true => rfl
    | false => exact ih (fun x hx => h x (List.mem_cons_of_mem _ hx))

/-- `firstMin` is the first list entry whose join timestamp is a minimum
of the whole list — i.e. "earliest join timestamp, ties broken by
insertion order". -/
theorem firstMin_eq_find? (l : List (String × Peer)) :
    firstMin l =
      (l.find? (fun p =>
          l.all (fun q => p.2.joinedAt ≤ q.2.joinedAt))).map
        (fun p => (p.1, p.2.joinedAt)) := by
  induction l with
  | nil => simp [firstMin]
  | cons p rest ih =>
    cases hfm : firstMin rest with
    | none =>
      rw [(firstMin_eq_none_iff rest).mp hfm]
      simp [firstMin, List.find?]
    | some qt =>
      obtain ⟨q, t⟩ := qt
      obtain ⟨w, hw, hwq, hwt⟩ := firstMin_mem hfm
      have hmin := firstMin_le hfm
      by_cases hle : p.2.joinedAt ≤ t
      · have hallp : ((p :: rest).all
            (fun s => p.2.joinedAt ≤ s.2.joinedAt)) = true := by
          rw [List.all_eq_true]
          intro s hs
          simp only [decide_eq_true_eq]
          rcases List.mem_cons.mp hs with hsp | hs'
          · subst hsp; omega
          · have := hmin s hs'; omega
        simp only [List.find?, hallp, firstMin, hfm, if_pos hle,
          Option.map_some']
      · have hnp : ((p :: rest).all
            (fun s => p.2.joinedAt ≤ s.2.joinedAt)) = false := by
          cases hb : (p :: rest).all
              (fun s => p.2.joinedAt ≤ s.2.joinedAt) with
          | false => rfl
          | true =>
            exfalso
            rw [List.all_eq_true] at hb
            have hw2 := hb w (List.mem_cons_of_mem _ hw)
            simp only [decide_eq_true_eq] at hw2
            omega
        have hcongr :
            rest.find? (fun s =>
                (p :: rest).all (fun r => s.2.joinedAt ≤ r.2.joinedAt)) =
            rest.find? (fun s =>
                rest.all (fun r => s.2.joinedAt ≤ r.2.joinedAt)) := by
          apply find?_congr_mem
          intro x hx
          rw [List.all_cons]
          by_cases hq : (rest.all
              (fun r => x.2.joinedAt ≤ r.2.joinedAt)) = true
          · have hxw := List.all_eq_true.mp hq w hw
            simp only [decide_eq_true_eq] at hxw
            have hxp : decide (x.2.joinedAt ≤ p.2.joinedAt) = true := by
              simp only [decide_eq_true_eq]
              omega
            rw [hq, hxp]
            rfl
          · have hq' : (rest.all
                (fun r => x.2.joinedAt ≤ r.2.joinedAt)) = false := by
              cases hb : rest.all (fun r => x.2.joinedAt ≤ r.2.joinedAt)
              · rfl
              · exact absurd hb hq
            rw [hq', Bool.and_false]
        simp only [List.find?, hnp, hcongr, ← ih, firstMin, hfm, if_neg hle]

theorem codeNewHost_eq_specNewHost (peers : List (String × Peer)) :
    codeNewHost peers = specNewHost peers := by
  unfold codeNewHost specNewHost
  rw [scanHost_eq_scanMin_filter, scanMin_none_eq_firstMin,
    firstMin_eq_find?, Option.map_map]
  cases hX : (nonRecorders peers).find? (fun p =>
      (nonRecorders peers).all
        (fun q => p.2.joinedAt ≤ q.2.joinedAt)) <;> rfl


/-! ## Host migration: helper lemmas -/

/-- `handleDisconnect` leaves the surviving peer map equal to the peer
map with the removed peer deleted. -/
theorem handleDisconnect_peers (room : Room) (pid : String)
    (hmem : mapHas room.peers pid = true) :
    (handleDisconnect room pid).peers = mapDelete room.peers pid := by
  by_cases hempty : mapDelete room.peers pid = [] <;>
    by_cases hh : room.hostId = some pid <;>
      simp [handleDisconnect, hmem, hh, hempty]

/-- After the host disconnects, the new `hostId` is `specNewHost` of the
surviving peer map. -/
theorem handleDisconnect_hostId_eq (room : Room) (pid : String)
    (hhost : room.hostId = some pid)
    (hmem : mapHas room.peers pid = true) :
    (handleDisconnect room pid).hostId =
      specNewHost (mapDelete room.peers pid) := by
  by_cases hempty : mapDelete room.peers pid = []
  · simp [handleDisconnect, hmem, hhost, hempty, specNewHost, nonRecorders]
  · simp [handleDisconnect, hmem, hhost, hempty, codeNewHost_eq_specNewHost]

/-- When a non-recorder survivor exists, `specNewHost` picks a member of
the list that is not a recorder. -/
theorem specNewHost_mem {peers : List (String × Peer)}
    (h : nonRecorders peers ≠ []) :
    ∃ e ∈ peers, specNewHost peers = some e.1 ∧ e.2.isRecorder = false := by
  cases hfm : firstMin (nonRecorders peers) with
  | none => exact absurd ((firstMin_eq_none_iff _).mp hfm) h
  | some qt =>
    obtain ⟨q, t⟩ := qt
    obtain ⟨r, hr, hrq, hrt⟩ := firstMin_mem hfm
    have hfind := firstMin_eq_find? (nonRecorders peers)
    rw [hfm] at hfind
    refine ⟨r, List.mem_of_mem_filter hr, ?_, ?_⟩
    · unfold specNewHost
      cases hfd : (nonRecorders peers).find? (fun p =>
          (nonRecorders peers).all
            (fun q => p.2.joinedAt ≤ q.2.joinedAt)) with
      | none => rw [hfd] at hfind; simp at hfind
      | some w =>
        rw [hfd] at hfind
        simp only [Option.map_some', Option.some.injEq,
          Prod.mk.injEq] at hfind ⊢
        exact hrq ▸ hfind.1.symm
    · have := (List.mem_filter.mp hr).2
      simpa using this

/-! ## Claim theorems: room registry -/

/-- **C1** (confirmed).  For every removal of the current host from a
room, host migration assigns `room.hostId` to the remaining non-recorder
peer with the earliest join timestamp, ties broken by peer-map insertion
order (`specNewHost` is literally "first entry among the non-recorder
survivors whose join timestamp is ≤ all of theirs"); when no non-recorder
peer remains — in particular when the room drained — `hostId` becomes
`none`. -/
theorem claim_C1_host_migration (room : Room) (pid : String)
    (hhost : room.hostId = some pid)
    (hmem : mapHas room.peers pid = true) :
    (handleDisconnect room pid).hostId =
      specNewHost (mapDelete room.peers pid) :=
  handleDisconnect_hostId_eq room pid hhost hmem

/-- Witness for C1: host `a` leaves a four-peer room (one recorder, two
later joiners tied on timestamp); migration picks `b`, the first
earliest-joined non-recorder survivor. -/
theorem claim_C1_host_migration_witness :
    (c1Room.hostId = some "a") ∧ mapHas c1Room.peers "a" = true ∧
    (handleDisconnect c1Room "a").hostId =
      specNewHost (mapDelete c1Room.peers "a") :=
  ⟨rfl, by decide, claim_C1_host_migration c1Room "a" rfl (by decide)⟩

/-! ## Claim theorems: password rejection (C5) -/

/-- **C5** counterexample.  The claim says a failed-password join leaves
a pending inactivity-eviction timer pending; in the source the timer is
cleared (room.service.js:193-196) *before* the password check (line 198),
so after the rejected join the timer is no longer pending. -/
theorem claim_C5_counterexample :
    (joinRoom ⟨some "secret", none, [], "S", 1, true⟩
        "p1" "alice" (some "wrong") false 10).2 =
      Except.error "Invalid password" ∧
    (joinRoom ⟨some "secret", none, [], "S", 1, true⟩
        "p1" "alice" (some "wrong") false 10).1.cleanupPending = false :=
  ⟨rfl, rfl⟩

/-- **C5** (amended).  A join with a mismatched password on a
password-protected room fails with `Invalid password` and causes no
state change apart from one: no peer is inserted, no host assigned, no
session started — but the pending inactivity-eviction timer has already
been cancelled when the password is checked, so it is left cleared, not
pending. -/
theorem claim_C5_invalid_password (room : Room) (peerId username : String)
    (supplied : Option String) (recorder : Bool) (now : Nat) (pw : String)
    (hpw : room.password = some pw) (hne : pw ≠ "")
    (hmis : supplied ≠ some pw) :
    (joinRoom room peerId username supplied recorder now).2 =
      Except.error "Invalid password" ∧
    (joinRoom room peerId username supplied recorder now).1 =
      { room with cleanupPending := false } := by
  have hm : passwordMismatch room.password supplied = true := by
    rw [hpw]
    simp [passwordMismatch, hne, hmis]
  constructor <;> simp [joinRoom, hm]

/-- Witness for the amended C5. -/
theorem claim_C5_invalid_password_witness :
    (⟨some "pw", none, [], "S", 1, true⟩ : Room).password = some "pw" ∧
    ("pw" : String) ≠ "" ∧ (some "x" : Option String) ≠ some "pw" ∧
    ((joinRoom ⟨some "pw", none, [], "S", 1, true⟩
        "p" "u" (some "x") false 5).2 =
      Except.error "Invalid password" ∧
    (joinRoom ⟨some "pw", none, [], "S", 1, true⟩
        "p" "u" (some "x") false 5).1 =
      { (⟨some "pw", none, [], "S", 1, true⟩ : Room) with
          cleanupPending := false }) :=
  ⟨rfl, by decide, by decide,
    claim_C5_invalid_password ⟨some "pw", none, [], "S", 1, true⟩
      "p" "u" (some "x") false 5 "pw" rfl (by decide) (by decide)⟩

/-! ## Claim theorems: the stale `isHost` flag (C10) -/

/-- **C10** (confirmed).  During host migration `handleDisconnect`
updates only `room.hostId` and never touches any surviving peer's
`isHost` flag, so the join-time invariant "`peer.isHost` is true exactly
when `room.hostId` is that peer" is not preserved: once the host leaves,
every surviving peer object carries `isHost = false`, whenever a
non-recorder survivor exists the new `hostId` names a peer whose stored
flag is `false`, and the peers list reported to subsequent joiners
(the `join-room` callback) shows no host at all. -/
theorem claim_C10_isHost_stale (room : Room) (pid : String)
    (hhost : room.hostId = some pid)
    (hmem : mapHas room.peers pid = true)
    (hinv : ∀ e ∈ room.peers,
      e.2.isHost = true ↔ room.hostId = some e.1) :
    (∀ e ∈ (handleDisconnect room pid).peers, e.2.isHost = false) ∧
    (nonRecorders (mapDelete room.peers pid) ≠ [] →
      ∃ e ∈ (handleDisconnect room pid).peers,
        (handleDisconnect room pid).hostId = some e.1 ∧
          e.2.isHost = false) ∧
    (∀ x ∈ reportedPeers (handleDisconnect room pid), x.2.2 = false) := by
  have hpeers := handleDisconnect_peers room pid hmem
  have hflag : ∀ e ∈ (handleDisconnect room pid).peers,
      e.2.isHost = false := by
    intro e he
    rw [hpeers] at he
    have hne := mem_mapDelete_key_ne he
    have hmemo := mem_of_mem_mapDelete he
    cases hflag : e.2.isHost with
    | false => rfl
    | true =>
      have := (hinv e hmemo).mp hflag
      rw [hhost] at this
      exact absurd (Option.some.inj this).symm hne
  refine ⟨hflag, ?_, ?_⟩
  · intro hnr
    obtain ⟨e, hmem2, hspec, _⟩ := specNewHost_mem hnr
    have hhid := handleDisconnect_hostId_eq room pid hhost hmem
    refine ⟨e, ?_, ?_, ?_⟩
    · rw [hpeers]; exact hmem2
    · rw [hhid, hspec]
    · exact hflag e (by rw [hpeers]; exact hmem2)
  · intro x hx
    unfold reportedPeers at hx
    obtain ⟨e, he, hex⟩ := List.mem_map.mp hx
    subst hex
    exact hflag e he

/-- Witness for C10: `alice` hosts, `bob` joins, `alice` disconnects.
The rooms are built by `joinRoom` itself, so the invariant holds at join
time; after migration `hostId = some "b"` while `bob`'s stored flag is
still `false`. -/
theorem claim_C10_isHost_stale_witness :
    (let r2 := (joinRoom
        ((joinRoom (freshRoom none 0) "a" "alice" none false 1).1)
        "b" "bob" none false 2).1
     r2.hostId = some "a" ∧ mapHas r2.peers "a" = true ∧
     (∀ e ∈ r2.peers, e.2.isHost = true ↔ r2.hostId = some e.1) ∧
     ((∀ e ∈ (handleDisconnect r2 "a").peers, e.2.isHost = false) ∧
      (nonRecorders (mapDelete r2.peers "a") ≠ [] →
        ∃ e ∈ (handleDisconnect r2 "a").peers,
          (handleDisconnect r2 "a").hostId = some e.1 ∧
            e.2.isHost = false) ∧
      (∀ x ∈ reportedPeers (handleDisconnect r2 "a"), x.2.2 = false))) :=
  ⟨by decide, by decide, by decide,
    claim_C10_isHost_stale _ "a" (by decide) (by decide) (by decide)⟩

/-! ## Claim theorems: room lifecycle (C8) -/

/-- Every exit of `joinRoom` — the password-rejection path included —
leaves the cleanup timer cleared (room.service.js:193-196 run first). -/
theorem joinRoom_cleanupPending_false (room : Room) (a b : String)
    (c : Option String) (d : Bool) (e : Nat) :
    (joinRoom room a b c d e).1.cleanupPending = false := by
  simp only [joinRoom]
  split
  · rfl
  · split <;> split <;> rfl

/-- The lifecycle invariant holds initially. -/
theorem lifeInv_init (password : Option String) (now : Nat) :
    LifeInv (initLife password now) := by
  refine ⟨fun _ => rfl, fun h => ?_, fun h => ?_⟩
  · simp [initLife] at h
  · simp [initLife] at h

/-- The lifecycle invariant is preserved by every event. -/
theorem lifeInv_step {s : LifeState} (hs : LifeInv s) (e : Ev) :
    LifeInv (lifeStep s e) := by
  obtain ⟨h1, h2, h3⟩ := hs
  cases e with
  | join pid uname pw rec now =>
    by_cases hreg : s.inRegistry = true
    · refine ⟨?_, ?_, ?_⟩ <;> simp only [lifeStep, hreg, if_pos]
      · intro h; exact h1 h
      · intro h; exact absurd (h2 h).2.1 (by simp [hreg])
      · intro h; simp [hreg] at h
    · have hreg' : s.inRegistry = false := by
        cases hb : s.inRegistry
        · rfl
        · exact absurd hb hreg
      simp only [lifeStep, hreg', Bool.false_eq_true, if_neg,
        not_false_eq_true]
      exact ⟨h1, h2, h3⟩
  | disc pid =>
    by_cases hreg : s.inRegistry = true
    · refine ⟨?_, ?_, ?_⟩ <;> simp only [lifeStep, hreg, if_pos]
      · intro h; exact h1 h
      · intro h; exact absurd (h2 h).2.1 (by simp [hreg])
      · intro h; simp [hreg] at h
    · have hreg' : s.inRegistry = false := by
        cases hb : s.inRegistry
        · rfl
        · exact absurd hb hreg
      simp only [lifeStep, hreg', Bool.false_eq_true, if_neg,
        not_false_eq_true]
      exact ⟨h1, h2, h3⟩
  | fire =>
    by_cases hp : s.room.cleanupPending = true
    · have hclosed : s.routerClosed = false := by
        cases hb : s.routerClosed
        · rfl
        · exact absurd hp (by simp [(h2 hb).2.2.2])
      by_cases hemp : s.room.peers = []
      · have hstep : lifeStep s Ev.fire =
            { room := { s.room with cleanupPending := false }
              inRegistry := false
              routerClosed := true
              closeCount := s.closeCount + 1 } := by
          simp [lifeStep, hp, hemp]
        rw [hstep]
        refine ⟨?_, ?_, ?_⟩
        · intro h; simp at h
        · intro _
          refine ⟨?_, rfl, ?_, rfl⟩
          · rw [h1 hclosed]
          · exact hemp
        · intro _; rfl
      · refine ⟨?_, ?_, ?_⟩ <;> simp only [lifeStep, hp, if_pos, hemp,
          if_neg, not_false_eq_true]
        · intro h; exact h1 h
        · intro h; exact absurd hp (by simp [(h2 h).2.2.2])
        · intro h; exact h3 h
    · have hp' : s.room.cleanupPending = false := by
        cases hb : s.room.cleanupPending
        · rfl
        · exact absurd hb hp
      simp only [lifeStep, hp', Bool.false_eq_true, if_neg,
        not_false_eq_true]
      exact ⟨h1, h2, h3⟩

/-- The lifecycle invariant is preserved by every event sequence. -/
theorem lifeInv_run {s : LifeState} (hs : LifeInv s) (evs : List Ev) :
    LifeInv (lifeRun s evs) := by
  induction evs generalizing s with
  | nil => exact hs
  | cons e rest ih => exact ih (lifeInv_step hs e)

/-- **C8** (confirmed).  Along every event sequence on a room's
lifecycle: the routing context is never closed while any peer remains;
it is closed at most once; a join always leaves the inactivity-eviction
timer cancelled; and a timer that fires while the room is non-empty is a
no-op — it closes nothing, deletes nothing, and changes no peer. -/
theorem claim_C8_router_safety (password : Option String) (now : Nat)
    (evs : List Ev) :
    ((lifeRun (initLife password now) evs).room.peers ≠ [] →
      (lifeRun (initLife password now) evs).routerClosed = false) ∧
    (lifeRun (initLife password now) evs).closeCount ≤ 1 ∧
    (∀ pid uname pw rec n,
      (lifeStep (lifeRun (initLife password now) evs)
        (Ev.join pid uname pw rec n)).room.cleanupPending = false) ∧
    ((lifeRun (initLife password now) evs).room.peers ≠ [] →
      (lifeStep (lifeRun (initLife password now) evs) Ev.fire).routerClosed
          = (lifeRun (initLife password now) evs).routerClosed ∧
        (lifeStep (lifeRun (initLife password now) evs) Ev.fire).closeCount
          = (lifeRun (initLife password now) evs).closeCount ∧
        (lifeStep (lifeRun (initLife password now) evs) Ev.fire).inRegistry
          = (lifeRun (initLife password now) evs).inRegistry ∧
        (lifeStep (lifeRun (initLife password now) evs) Ev.fire).room.peers
          = (lifeRun (initLife password now) evs).room.peers) := by
  obtain ⟨h1, h2, h3⟩ :=
    lifeInv_run (lifeInv_init password now) evs
  set s := lifeRun (initLife password now) evs with hs
  refine ⟨?_, ?_, ?_, ?_⟩
  · intro hne
    cases hb : s.routerClosed
    · rfl
    · exact absurd (h2 hb).2.2.1 hne
  · cases hb : s.routerClosed
    · rw [h1 hb]; omega
    · rw [(h2 hb).1]
  · intro pid uname pw rec n
    by_cases hreg : s.inRegistry = true
    · simp only [lifeStep, hreg, if_pos]
      exact joinRoom_cleanupPending_false _ _ _ _ _ _
    · have hreg' : s.inRegistry = false := by
        cases hb : s.inRegistry
        · rfl
        · exact absurd hb hreg
      simp only [lifeStep, hreg', Bool.false_eq_true, if_neg,
        not_false_eq_true]
      exact (h2 (h3 hreg')).2.2.2
  · intro hne
    by_cases hp : s.room.cleanupPending = true
    · refine ⟨?_, ?_, ?_, ?_⟩ <;>
        simp only [lifeStep, hp, if_pos, hne, if_neg, not_false_eq_true]
    · have hp' : s.room.cleanupPending = false := by
        cases hb : s.room.cleanupPending
        · rfl
        · exact absurd hb hp
      refine ⟨?_, ?_, ?_, ?_⟩ <;>
        simp only [lifeStep, hp', Bool.false_eq_true, if_neg,
          not_false_eq_true]

/-- Witness for C8: after `a` joins, leaves (arming the timer), and `b`
joins again, the room is non-empty, the router is open, a further join
leaves no timer pending, and a firing timer changes nothing. -/
theorem claim_C8_router_safety_witness :
    (let s := lifeRun (initLife none 0)
      [Ev.join "a" "alice" none false 1, Ev.disc "a",
       Ev.join "b" "bob" none false 2]
     s.room.peers ≠ [] ∧ s.routerClosed = false ∧ s.closeCount ≤ 1 ∧
     (lifeStep s (Ev.join "c" "carol" none false 3)).room.cleanupPending
        = false ∧
     (lifeStep s Ev.fire).room.peers = s.room.peers) := by
  refine ⟨by decide, ?_, ?_, ?_, ?_⟩
  · exact (claim_C8_router_safety none 0 _).1 (by decide)
  · exact (claim_C8_router_safety none 0 _).2.1
  · exact (claim_C8_router_safety none 0 _).2.2.1 "c" "carol" none false 3
  · exact ((claim_C8_router_safety none 0 _).2.2.2 (by decide)).2.2.2

/-! ## Further map lemmas -/

theorem mem_mapSet {α : Type} {m : List (String × α)} {k : String}
    {v : α} {e : String × α} (h : e ∈ mapSet m k v) :
    e ∈ m ∨ e = (k, v) := by
  induction m with
  | nil => simpa [mapSet] using h
  | cons p rest ih =>
    by_cases hp : p.1 = k
    · simp only [mapSet, if_pos hp, List.mem_cons] at h
      rcases h with h | h
      · right; exact h
      · left; exact List.mem_cons_of_mem _ h
    · simp only [mapSet, if_neg hp, List.mem_cons] at h
      rcases h with h | h
      · left; exact h ▸ List.mem_cons_self _ _
      · rcases ih h with h' | h'
        · left; exact List.mem_cons_of_mem _ h'
        · right; exact h'

theorem mapGet_isSome_mapSet {α : Type} (m : List (String × α))
    (k k' : String) (v : α) (h : (mapGet m k').isSome = true) :
    (mapGet (mapSet m k v) k').isSome = true := by
  by_cases hk : k' = k
  · subst hk
    rw [mapGet_mapSet_self]
    rfl
  · rw [mapGet_mapSet_ne m k k' v hk]
    exact h

theorem mapGet_none_forall {α : Type} {m : List (String × α)} {k : String}
    (h : mapGet m k = none) : ∀ e ∈ m, e.1 ≠ k := by
  induction m with
  | nil => simp
  | cons p rest ih =>
    by_cases hp : p.1 = k
    · simp [mapGet, hp] at h
    · simp only [mapGet, if_neg hp] at h
      intro e he
      rcases List.mem_cons.mp he with he' | he'
      · subst he'; exact hp
      · exact ih h e he'

/-! ## Claim theorems: recording start rejection (C3) -/

/-- **C3** (confirmed).  `startRecording` is idempotent-rejecting: when
the per-room map already holds a RecordingSession for the room, a second
call fails with the already-recording error, the map is unchanged, and
it still holds exactly the first session. -/
theorem claim_C3_already_recording (env : RecEnv) (sessions : RecState)
    (roomId startedBy : String) (rooms : List (String × Room)) (now : Nat)
    (room : Room) (s0 : RecSession)
    (hroom : mapGet rooms roomId = some room)
    (h : mapGet sessions roomId = some s0) :
    (startRecording env sessions roomId startedBy rooms now).1 =
      sessions ∧
    (startRecording env sessions roomId startedBy rooms now).2 =
      Except.error "Recording already in progress" ∧
    mapGet (startRecording env sessions roomId startedBy rooms now).1
      roomId = some s0 := by
  have hhas : mapHas sessions roomId = true := by
    unfold mapHas
    rw [h]
    rfl
  refine ⟨?_, ?_, ?_⟩ <;> simp [startRecording, hroom, hhas, h]

/-- Witness for C3. -/
theorem claim_C3_already_recording_witness :
    (mapGet [("r1", freshRoom none 0)] "r1" = some (freshRoom none 0)) ∧
    (mapGet [("r1", (⟨"rec1", "r1", 0, "alice", [], [], [], [], []⟩ :
        RecSession))] "r1" =
      some ⟨"rec1", "r1", 0, "alice", [], [], [], [], []⟩) ∧
    ((startRecording ⟨fun _ => true, fun _ => none⟩
        [("r1", ⟨"rec1", "r1", 0, "alice", [], [], [], [], []⟩)]
        "r1" "bob" [("r1", freshRoom none 0)] 7).1 =
      [("r1", ⟨"rec1", "r1", 0, "alice", [], [], [], [], []⟩)] ∧
    (startRecording ⟨fun _ => true, fun _ => none⟩
        [("r1", ⟨"rec1", "r1", 0, "alice", [], [], [], [], []⟩)]
        "r1" "bob" [("r1", freshRoom none 0)] 7).2 =
      Except.error "Recording already in progress" ∧
    mapGet (startRecording ⟨fun _ => true, fun _ => none⟩
        [("r1", ⟨"rec1", "r1", 0, "alice", [], [], [], [], []⟩)]
        "r1" "bob" [("r1", freshRoom none 0)] 7).1 "r1" =
      some ⟨"rec1", "r1", 0, "alice", [], [], [], [], []⟩) :=
  ⟨rfl, rfl,
    claim_C3_already_recording ⟨fun _ => true, fun _ => none⟩
      [("r1", ⟨"rec1", "r1", 0, "alice", [], [], [], [], []⟩)]
      "r1" "bob" [("r1", freshRoom none 0)] 7
      (freshRoom none 0) ⟨"rec1", "r1", 0, "alice", [], [], [], [], []⟩
      rfl rfl⟩

/-! ## Claim theorems: stop-recording file list (C4) -/

/-- **C4** counterexample.  The claim says output files below a minimum
size threshold are excluded from the returned file list and the sidecar
metadata; in the source (recording.service.js:371-395) every *existing*
file is pushed with its stat size, with no minimum-size test.  Stopping
a session whose single capture produced a 0-byte file — below any
positive threshold, e.g. the reference 100-byte cut-off of the legacy
variant — returns that file in both the list and the metadata. -/
theorem claim_C4_counterexample :
    (stopRecording ⟨fun _ => true, fun _ => some 0⟩
        [("room1", ⟨"rid", "room1", 0, "alice", [], [], [],
          [("p1", ⟨"alice", true, false, "f.opus"⟩)], []⟩)]
        "room1" 9).2 =
      Except.ok
        { recordingId := "rid"
          files := [⟨"p1", "alice", "f.opus", 0⟩]
          metadata := ⟨"rid", "room1", 0, 9, "alice",
            [⟨"p1", "alice", "f.opus", 0⟩], []⟩ } := rfl

/-- **C4** (amended).  For every `stopRecording` on a room with an
active RecordingSession: the call succeeds and removes the session; the
sidecar metadata's files array equals the returned file list; every
PeerRecording whose output file exists appears with its peer id,
username, filename and stat size — regardless of size, the source
applies no minimum-size threshold — and missing files are skipped
rather than raising an error: every returned entry corresponds to a
PeerRecording whose file exists with exactly that size. -/
theorem claim_C4_stop_files (env : RecEnv) (sessions : RecState)
    (roomId : String) (now : Nat) (session : RecSession)
    (h : mapGet sessions roomId = some session) :
    ∃ res, (stopRecording env sessions roomId now).2 = Except.ok res ∧
      (stopRecording env sessions roomId now).1 =
        mapDelete sessions roomId ∧
      res.metadata.files = res.files ∧
      (∀ pr ∈ session.peerRecordings, ∀ sz,
        env.fileSize pr.2.outputPath = some sz →
          (⟨pr.1, pr.2.username, pr.2.outputPath, sz⟩ : FileEntry)
            ∈ res.files) ∧
      (∀ f ∈ res.files, ∃ pr ∈ session.peerRecordings,
        f.peerId = pr.1 ∧ f.file = pr.2.outputPath ∧
          env.fileSize pr.2.outputPath = some f.size) := by
  have hstop : (stopRecording env sessions roomId now).2 = Except.ok
      { recordingId := session.recordingId
        files := session.peerRecordings.filterMap (fun pr =>
          match env.fileSize pr.2.outputPath with
          | some size =>
            some { peerId := pr.1
                   username := pr.2.username
                   file := pr.2.outputPath
                   size := size }
          | none => none)
        metadata :=
          { recordingId := session.recordingId
            roomId := roomId
            startedAt := session.startedAt
            endedAt := now
            startedBy := session.startedBy
            files := session.peerRecordings.filterMap (fun pr =>
              match env.fileSize pr.2.outputPath with
              | some size =>
                some { peerId := pr.1
                       username := pr.2.username
                       file := pr.2.outputPath
                       size := size }
              | none => none)
            transcripts := session.transcripts } } := by
    simp [stopRecording, h]
  refine ⟨_, hstop, ?_, ?_, ?_, ?_⟩
  · simp [stopRecording, h]
  · rfl
  · intro pr hpr sz hsz
    apply List.mem_filterMap.mpr
    exact ⟨pr, hpr, by simp [hsz]⟩
  · intro f hf
    obtain ⟨pr, hpr, hg⟩ := List.mem_filterMap.mp hf
    refine ⟨pr, hpr, ?_⟩
    cases hsz : env.fileSize pr.2.outputPath with
    | none => rw [hsz] at hg; simp at hg
    | some sz =>
      rw [hsz] at hg
      simp only [Option.some.injEq] at hg
      subst hg
      refine ⟨rfl, rfl, ?_⟩
      simp [hsz]

/-- Witness for the amended C4: one capture file exists (17 bytes), one
is missing; the result lists exactly the existing one. -/
theorem claim_C4_stop_files_witness :
    (mapGet [("r1", (⟨"rid", "r1", 0, "alice", [], [], [],
        [("p1", ⟨"alice", true, false, "a.opus"⟩),
         ("p2", ⟨"bob", true, true, "b.webm"⟩)], []⟩ : RecSession))]
      "r1" = some ⟨"rid", "r1", 0, "alice", [], [], [],
        [("p1", ⟨"alice", true, false, "a.opus"⟩),
         ("p2", ⟨"bob", true, true, "b.webm"⟩)], []⟩) ∧
    (∃ res, (stopRecording
        ⟨fun _ => true, fun p => if p = "a.opus" then some 17 else none⟩
        [("r1", ⟨"rid", "r1", 0, "alice", [], [], [],
          [("p1", ⟨"alice", true, false, "a.opus"⟩),
           ("p2", ⟨"bob", true, true, "b.webm"⟩)], []⟩)]
        "r1" 9).2 = Except.ok res ∧
      (stopRecording
        ⟨fun _ => true, fun p => if p = "a.opus" then some 17 else none⟩
        [("r1", ⟨"rid", "r1", 0, "alice", [], [], [],
          [("p1", ⟨"alice", true, false, "a.opus"⟩),
           ("p2", ⟨"bob", true, true, "b.webm"⟩)], []⟩)]
        "r1" 9).1 =
        mapDelete [("r1", ⟨"rid", "r1", 0, "alice", [], [], [],
          [("p1", ⟨"alice", true, false, "a.opus"⟩),
           ("p2", ⟨"bob", true, true, "b.webm"⟩)], []⟩)] "r1" ∧
      res.metadata.files = res.files ∧
      (∀ pr ∈ ([("p1", ⟨"alice", true, false, "a.opus"⟩),
           ("p2", ⟨"bob", true, true, "b.webm"⟩)] :
             List (String × PeerRecording)), ∀ sz,
        (fun p => if p = "a.opus" then some 17 else none)
            pr.2.outputPath = some sz →
          (⟨pr.1, pr.2.username, pr.2.outputPath, sz⟩ : FileEntry)
            ∈ res.files) ∧
      (∀ f ∈ res.files, ∃ pr ∈ ([("p1", ⟨"alice", true, false, "a.opus"⟩),
           ("p2", ⟨"bob", true, true, "b.webm"⟩)] :
             List (String × PeerRecording)),
        f.peerId = pr.1 ∧ f.file = pr.2.outputPath ∧
          (fun p => if p = "a.opus" then some 17 else none)
            pr.2.outputPath = some f.size)) :=
  ⟨rfl,
    claim_C4_stop_files
      ⟨fun _ => true, fun p => if p = "a.opus" then some 17 else none⟩
      [("r1", ⟨"rid", "r1", 0, "alice", [], [], [],
        [("p1", ⟨"alice", true, false, "a.opus"⟩),
         ("p2", ⟨"bob", true, true, "b.webm"⟩)], []⟩)]
      "r1" 9
      ⟨"rid", "r1", 0, "alice", [], [], [],
        [("p1", ⟨"alice", true, false, "a.opus"⟩),
         ("p2", ⟨"bob", true, true, "b.webm"⟩)], []⟩
      rfl⟩

/-! ## Claim theorems: concurrent-recording capacity (C7) -/

/-- **C7** counterexample.  The active per-peer recording service
(`src/services/recording.service.js:47-82`) performs no capacity check:
with five recordings already running in other rooms, a sixth
`startRecording` still succeeds and registers a sixth session. -/
theorem claim_C7_counterexample :
    (startRecording ⟨fun _ => true, fun _ => none⟩
        [("r1", ⟨"x", "x", 0, "a", [], [], [], [], []⟩),
         ("r2", ⟨"x", "x", 0, "a", [], [], [], [], []⟩),
         ("r3", ⟨"x", "x", 0, "a", [], [], [], [], []⟩),
         ("r4", ⟨"x", "x", 0, "a", [], [], [], [], []⟩),
         ("r5", ⟨"x", "x", 0, "a", [], [], [], [], []⟩)]
        "r6" "alice" [("r6", freshRoom none 0)] 3).2 =
      Except.ok ⟨"r6-3", "r6", 3, "alice", [], [], [], [], []⟩ ∧
    (startRecording ⟨fun _ => true, fun _ => none⟩
        [("r1", ⟨"x", "x", 0, "a", [], [], [], [], []⟩),
         ("r2", ⟨"x", "x", 0, "a", [], [], [], [], []⟩),
         ("r3", ⟨"x", "x", 0, "a", [], [], [], [], []⟩),
         ("r4", ⟨"x", "x", 0, "a", [], [], [], [], []⟩),
         ("r5", ⟨"x", "x", 0, "a", [], [], [], [], []⟩)]
        "r6" "alice" [("r6", freshRoom none 0)] 3).1.length = 6 :=
  ⟨rfl, rfl⟩

/-- **C7** (amended).  Only the combined-mode variant
(src/unnamed/part_004) enforces the global concurrent-recording limit:
once `recordingSessions.size` has reached `MAX_CONCURRENT_RECORDINGS`
(= 5), its `startRecording` rejects with the capacity error before
creating any session and leaves the session map unchanged; the active
per-peer service has no such check. -/
theorem claim_C7_capacity_combined (sessions : RecState)
    (roomId startedBy : String) (rooms : List (String × Room)) (now : Nat)
    (h : MAX_CONCURRENT_RECORDINGS ≤ sessions.length) :
    (startRecordingCombined sessions roomId startedBy rooms now).1 =
      sessions ∧
    (startRecordingCombined sessions roomId startedBy rooms now).2 =
      Except.error
        "Server recording capacity reached. Please try again later." := by
  constructor <;> simp [startRecordingCombined, h]

/-- Witness for the amended C7. -/
theorem claim_C7_capacity_combined_witness :
    MAX_CONCURRENT_RECORDINGS ≤
      ([("r1", ⟨"x", "x", 0, "a", [], [], [], [], []⟩),
        ("r2", ⟨"x", "x", 0, "a", [], [], [], [], []⟩),
        ("r3", ⟨"x", "x", 0, "a", [], [], [], [], []⟩),
        ("r4", ⟨"x", "x", 0, "a", [], [], [], [], []⟩),
        ("r5", ⟨"x", "x", 0, "a", [], [], [], [], []⟩)] :
          RecState).length ∧
    ((startRecordingCombined
        [("r1", ⟨"x", "x", 0, "a", [], [], [], [], []⟩),
         ("r2", ⟨"x", "x", 0, "a", [], [], [], [], []⟩),
         ("r3", ⟨"x", "x", 0, "a", [], [], [], [], []⟩),
         ("r4", ⟨"x", "x", 0, "a", [], [], [], [], []⟩),
         ("r5", ⟨"x", "x", 0, "a", [], [], [], [], []⟩)]
        "r6" "alice" [("r6", freshRoom none 0)] 3).1 =
      [("r1", ⟨"x", "x", 0, "a", [], [], [], [], []⟩),
       ("r2", ⟨"x", "x", 0, "a", [], [], [], [], []⟩),
       ("r3", ⟨"x", "x", 0, "a", [], [], [], [], []⟩),
       ("r4", ⟨"x", "x", 0, "a", [], [], [], [], []⟩),
       ("r5", ⟨"x", "x", 0, "a", [], [], [], [], []⟩)] ∧
    (startRecordingCombined
        [("r1", ⟨"x", "x", 0, "a", [], [], [], [], []⟩),
         ("r2", ⟨"x", "x", 0, "a", [], [], [], [], []⟩),
         ("r3", ⟨"x", "x", 0, "a", [], [], [], [], []⟩),
         ("r4", ⟨"x", "x", 0, "a", [], [], [], [], []⟩),
         ("r5", ⟨"x", "x", 0, "a", [], [], [], [], []⟩)]
        "r6" "alice" [("r6", freshRoom none 0)] 3).2 =
      Except.error
        "Server recording capacity reached. Please try again later.") :=
  ⟨by decide,
    claim_C7_capacity_combined
      [("r1", ⟨"x", "x", 0, "a", [], [], [], [], []⟩),
       ("r2", ⟨"x", "x", 0, "a", [], [], [], [], []⟩),
       ("r3", ⟨"x", "x", 0, "a", [], [], [], [], []⟩),
       ("r4", ⟨"x", "x", 0, "a", [], [], [], [], []⟩),
       ("r5", ⟨"x", "x", 0, "a", [], [], [], [], []⟩)]
      "r6" "alice" [("r6", freshRoom none 0)] 3 (by decide)⟩

/-! ## Claim theorems: consume handler pause state (C2) -/

/-- **C2** counterexample.  The claim says a successful consume creates
the consumer paused; the `consume` handler creates it with
`paused: false` (socket.handler.js:311, comment: "Ensure consumer starts
unpaused").  A successful concrete consume stores the consumer with
`paused = false`. -/
theorem claim_C2_counterexample :
    (consumeHandler ⟨fun _ _ => true, fun _ => MKind.audio⟩
        [("r", ⟨none, some "s",
          [("s", ⟨"alice", [("t1", ())], [], [], 1, false, true⟩)],
          "S", 1, false⟩)] "s" "t1" "prod1" "caps" "c1").2 =
      some (Reply.payload ⟨"c1", "prod1", MKind.audio⟩) ∧
    (consumeHandler ⟨fun _ _ => true, fun _ => MKind.audio⟩
        [("r", ⟨none, some "s",
          [("s", ⟨"alice", [("t1", ())], [], [], 1, false, true⟩)],
          "S", 1, false⟩)] "s" "t1" "prod1" "caps" "c1").1 =
      [("r", ⟨none, some "s",
        [("s", ⟨"alice", [("t1", ())], [],
          [("c1", ⟨"prod1", MKind.audio, false⟩)], 1, false, true⟩)],
        "S", 1, false⟩)] :=
  ⟨rfl, rfl⟩

/-- **C2** (amended).  For every successful consume request (transport
found and the `canConsume` compatibility predicate true), the handler
replies with the consumer descriptor and stores the consumer
**unpaused** (`paused: false`), so it delivers media immediately; a
resume-consumer call on any stored consumer is acknowledged but not
required — it (re)sets `paused` to `false`. -/
theorem claim_C2_consume_unpaused (env : SigEnv)
    (rooms : List (String × Room))
    (socketId transportId producerId caps newConsumerId roomId : String)
    (room : Room) (peer : Peer)
    (hfind : findRoomOfSocket rooms socketId = some (roomId, room))
    (hpeer : mapGet room.peers socketId = some peer)
    (htrans : (mapGet peer.transports transportId).isSome = true)
    (hcan : env.canConsume producerId caps = true) :
    ((consumeHandler env rooms socketId transportId producerId caps
        newConsumerId).2 =
      some (Reply.payload
        ⟨newConsumerId, producerId, env.producerKind producerId⟩)) ∧
    (∃ room' peer',
      (consumeHandler env rooms socketId transportId producerId caps
          newConsumerId).1 = mapSet rooms roomId room' ∧
      mapGet room'.peers socketId = some peer' ∧
      mapGet peer'.consumers newConsumerId =
        some ⟨producerId, env.producerKind producerId, false⟩) ∧
    (∀ (rooms2 : List (String × Room)) (sid cid roomId2 : String)
        (room2 : Room) (peer2 : Peer) (c : SConsumer),
      findRoomOfSocket rooms2 sid = some (roomId2, room2) →
      mapGet room2.peers sid = some peer2 →
      mapGet peer2.consumers cid = some c →
        (resumeConsumerHandler rooms2 sid cid).2 =
          some (Reply.payload ()) ∧
        ∃ room3 peer3,
          (resumeConsumerHandler rooms2 sid cid).1 =
            mapSet rooms2 roomId2 room3 ∧
          mapGet room3.peers sid = some peer3 ∧
          mapGet peer3.consumers cid =
            some { c with paused := false }) := by
  obtain ⟨t, ht⟩ := Option.isSome_iff_exists.mp htrans
  have hcan' : (env.canConsume producerId caps = false) = False := by
    simp [hcan]
  refine ⟨?_, ?_, ?_⟩
  · simp [consumeHandler, hfind, hpeer, ht, hcan']
  · have hstate : (consumeHandler env rooms socketId transportId producerId caps newConsumerId).1 = mapSet rooms roomId { room with peers := mapSet room.peers socketId { peer with consumers := mapSet peer.consumers newConsumerId ⟨producerId, env.producerKind producerId, false⟩ } } := by
      simp [consumeHandler, hfind, hpeer, ht, hcan']
    exact ⟨_, _, hstate, mapGet_mapSet_self _ _ _,
      mapGet_mapSet_self _ _ _⟩
  · intro rooms2 sid cid roomId2 room2 peer2 c hf2 hp2 hc2
    have hstate2 : (resumeConsumerHandler rooms2 sid cid).1 = mapSet rooms2 roomId2 { room2 with peers := mapSet room2.peers sid { peer2 with consumers := mapSet peer2.consumers cid { c with paused := false } } } := by
      simp [resumeConsumerHandler, hf2, hp2, hc2]
    have hreply : (resumeConsumerHandler rooms2 sid cid).2 =
        some (Reply.payload ()) := by
      simp [resumeConsumerHandler, hf2, hp2, hc2]
    exact ⟨hreply, _, _, hstate2, mapGet_mapSet_self _ _ _,
      mapGet_mapSet_self _ _ _⟩

/-- Witness for the amended C2. -/
theorem claim_C2_consume_unpaused_witness :
    (findRoomOfSocket
        [("r", ⟨none, some "s",
          [("s", ⟨"alice", [("t1", ())], [], [], 1, false, true⟩)],
          "S", 1, false⟩)] "s" =
      some ("r", ⟨none, some "s",
        [("s", ⟨"alice", [("t1", ())], [], [], 1, false, true⟩)],
        "S", 1, false⟩)) ∧
    ((consumeHandler ⟨fun _ _ => true, fun _ => MKind.video⟩
        [("r", ⟨none, some "s",
          [("s", ⟨"alice", [("t1", ())], [], [], 1, false, true⟩)],
          "S", 1, false⟩)] "s" "t1" "p9" "caps" "c9").2 =
      some (Reply.payload ⟨"c9", "p9", MKind.video⟩)) :=
  ⟨by decide,
    (claim_C2_consume_unpaused ⟨fun _ _ => true, fun _ => MKind.video⟩
      [("r", ⟨none, some "s",
        [("s", ⟨"alice", [("t1", ())], [], [], 1, false, true⟩)],
        "S", 1, false⟩)]
      "s" "t1" "p9" "caps" "c9" "r"
      ⟨none, some "s",
        [("s", ⟨"alice", [("t1", ())], [], [], 1, false, true⟩)],
        "S", 1, false⟩
      ⟨"alice", [("t1", ())], [], [], 1, false, true⟩
      (by decide) (by decide) (by decide) (by decide)).1⟩

/-! ## Claim theorems: reply coverage (C9) -/

/-- **C9** counterexample.  `produce` with an unknown transport id and
`resume-consumer` with an unknown consumer id invoke no callback at all
(their `if` guards have no else branch, socket.handler.js:275-287 and
334-337): the handler returns with the reply slot empty, so the caller
receives neither a success payload nor an error object. -/
theorem claim_C9_counterexample :
    (produceHandler
        [("r", ⟨none, some "s",
          [("s", ⟨"alice", [("t1", ())], [], [], 1, false, true⟩)],
          "S", 1, false⟩)]
        "s" "unknown-transport" MKind.audio "p1").2 = none ∧
    (resumeConsumerHandler
        [("r", ⟨none, some "s",
          [("s", ⟨"alice", [("t1", ())], [], [], 1, false, true⟩)],
          "S", 1, false⟩)]
        "s" "unknown-consumer").2 = none :=
  ⟨rfl, rfl⟩

/-- **C9** (amended).  Signaling handlers reply at most once, and the
guarded paths behave asymmetrically: `consume` always invokes its
callback (success or a structured error), and `produce` replies with the
producer id whenever the transport is found — but `produce` whose
room/peer/transport lookup fails, and `resume-consumer` whose
room/peer/consumer lookup fails, never invoke the callback, so on those
paths the caller receives no reply at all. -/
theorem claim_C9_reply_paths (env : SigEnv)
    (rooms : List (String × Room))
    (socketId transportId producerId caps newConsumerId consumerId :
      String) (kind : MKind) (newProducerId : String) :
    ((consumeHandler env rooms socketId transportId producerId caps
        newConsumerId).2 ≠ none) ∧
    (findRoomOfSocket rooms socketId = none →
      (produceHandler rooms socketId transportId kind newProducerId).2 =
          none ∧
        (resumeConsumerHandler rooms socketId consumerId).2 = none) ∧
    (∀ roomId room peer,
      findRoomOfSocket rooms socketId = some (roomId, room) →
      mapGet room.peers socketId = some peer →
        (mapGet peer.transports transportId = none →
          (produceHandler rooms socketId transportId kind
            newProducerId).2 = none) ∧
        (∀ t, mapGet peer.transports transportId = some t →
          (produceHandler rooms socketId transportId kind
              newProducerId).2 =
            some (Reply.payload ⟨newProducerId⟩)) ∧
        (mapGet peer.consumers consumerId = none →
          (resumeConsumerHandler rooms socketId consumerId).2 = none) ∧
        (∀ c, mapGet peer.consumers consumerId = some c →
          (resumeConsumerHandler rooms socketId consumerId).2 =
            some (Reply.payload ()))) := by
  refine ⟨?_, ?_, ?_⟩
  · unfold consumeHandler
    cases hf : findRoomOfSocket rooms socketId with
    | none => simp
    | some rr =>
      obtain ⟨rid, room⟩ := rr
      cases hp : mapGet room.peers socketId with
      | none => simp [hp]
      | some peer =>
        cases ht : mapGet peer.transports transportId with
        | none => simp [hp, ht]
        | some t =>
          by_cases hc : env.canConsume producerId caps = false <;>
            simp [hp, ht, hc]
  · intro hf
    constructor <;> simp [produceHandler, resumeConsumerHandler, hf]
  · intro roomId room peer hf hp
    refine ⟨?_, ?_, ?_, ?_⟩
    · intro ht
      simp [produceHandler, hf, hp, ht]
    · intro t ht
      simp [produceHandler, hf, hp, ht]
    · intro hc
      simp [resumeConsumerHandler, hf, hp, hc]
    · intro c hc
      simp [resumeConsumerHandler, hf, hp, hc]

/-- Witness for the amended C9. -/
theorem claim_C9_reply_paths_witness :
    (findRoomOfSocket
        [("r", ⟨none, some "s",
          [("s", ⟨"alice", [("t1", ())], [], [], 1, false, true⟩)],
          "S", 1, false⟩)] "s" =
      some ("r", ⟨none, some "s",
        [("s", ⟨"alice", [("t1", ())], [], [], 1, false, true⟩)],
        "S", 1, false⟩)) ∧
    (mapGet ([("s", ⟨"alice", [("t1", ())], [], [], 1, false, true⟩)] :
        List (String × Peer)) "s" =
      some ⟨"alice", [("t1", ())], [], [], 1, false, true⟩) ∧
    (mapGet ([("t1", ())] : List (String × Unit)) "t0" = none) ∧
    ((produceHandler
        [("r", ⟨none, some "s",
          [("s", ⟨"alice", [("t1", ())], [], [], 1, false, true⟩)],
          "S", 1, false⟩)]
        "s" "t0" MKind.audio "p1").2 = none) :=
  ⟨by decide, by decide, by decide,
    ((claim_C9_reply_paths ⟨fun _ _ => true, fun _ => MKind.audio⟩
      [("r", ⟨none, some "s",
        [("s", ⟨"alice", [("t1", ())], [], [], 1, false, true⟩)],
        "S", 1, false⟩)]
      "s" "t0" "p" "caps" "nc" "c0" MKind.audio "p1").2.2
      "r"
      ⟨none, some "s",
        [("s", ⟨"alice", [("t1", ())], [], [], 1, false, true⟩)],
        "S", 1, false⟩
      ⟨"alice", [("t1", ())], [], [], 1, false, true⟩
      (by decide) (by decide)).1 (by decide)⟩

/-! ## Recording per-peer setup lemmas (towards C6) -/

/-- `captureStep` never touches the peer-recording or process maps. -/
theorem captureStep_fixed (q : String) (acc : RecSession × Bool × Bool)
    (pr : String × Producer) :
    (captureStep q acc pr).1.peerRecordings = acc.1.peerRecordings ∧
    (captureStep q acc pr).1.processes = acc.1.processes := by
  cases hk : pr.2.kind <;> simp [captureStep, hk]

/-- Neither does the whole producer loop. -/
theorem captureFold_fixed (q : String) (prods : List (String × Producer))
    (acc : RecSession × Bool × Bool) :
    (prods.foldl (captureStep q) acc).1.peerRecordings =
      acc.1.peerRecordings ∧
    (prods.foldl (captureStep q) acc).1.processes = acc.1.processes := by
  induction prods generalizing acc with
  | nil => exact ⟨rfl, rfl⟩
  | cons pr rest ih =>
    have h1 := captureStep_fixed q acc pr
    have h2 := ih (captureStep q acc pr)
    exact ⟨h2.1.trans h1.1, h2.2.trans h1.2⟩

/-- All transports/consumers `captureStep` adds belong to the processed
peer. -/
theorem captureStep_owner (q P : String) (hqP : q ≠ P)
    (acc : RecSession × Bool × Bool) (pr : String × Producer)
    (ht : ∀ e ∈ acc.1.transports, e.2 ≠ P)
    (hc : ∀ e ∈ acc.1.consumers, e.2 ≠ P) :
    (∀ e ∈ (captureStep q acc pr).1.transports, e.2 ≠ P) ∧
    (∀ e ∈ (captureStep q acc pr).1.consumers, e.2 ≠ P) := by
  have htr : ∀ e ∈ mapSet acc.1.transports (captureTransportId q pr.1) q,
      e.2 ≠ P := by
    intro e he
    rcases mem_mapSet he with h | h
    · exact ht e h
    · rw [h]; exact hqP
  have hco : ∀ e ∈ mapSet acc.1.consumers (captureConsumerId q pr.1) q,
      e.2 ≠ P := by
    intro e he
    rcases mem_mapSet he with h | h
    · exact hc e h
    · rw [h]; exact hqP
  cases hk : pr.2.kind <;>
    exact ⟨fun e he => htr e (by simpa [captureStep, hk] using he),
      fun e he => hco e (by simpa [captureStep, hk] using he)⟩

/-- Ownership of transports/consumers through the producer loop. -/
theorem captureFold_owner (q P : String) (hqP : q ≠ P)
    (prods : List (String × Producer)) (acc : RecSession × Bool × Bool)
    (ht : ∀ e ∈ acc.1.transports, e.2 ≠ P)
    (hc : ∀ e ∈ acc.1.consumers, e.2 ≠ P) :
    (∀ e ∈ (prods.foldl (captureStep q) acc).1.transports, e.2 ≠ P) ∧
    (∀ e ∈ (prods.foldl (captureStep q) acc).1.consumers, e.2 ≠ P) := by
  induction prods generalizing acc with
  | nil => exact ⟨ht, hc⟩
  | cons pr rest ih =>
    obtain ⟨ht', hc'⟩ := captureStep_owner q P hqP acc pr ht hc
    exact ih (captureStep q acc pr) ht' hc'

/-- The audio/video flags only ever switch on. -/
theorem captureFold_flag_mono (q : String)
    (prods : List (String × Producer)) (acc : RecSession × Bool × Bool) :
    (acc.2.1 = true → (prods.foldl (captureStep q) acc).2.1 = true) ∧
    (acc.2.2 = true → (prods.foldl (captureStep q) acc).2.2 = true) := by
  induction prods generalizing acc with
  | nil => exact ⟨id, id⟩
  | cons pr rest ih =>
    constructor
    · intro h
      apply (ih (captureStep q acc pr)).1
      cases hk : pr.2.kind <;> simp [captureStep, hk, h]
    · intro h
      apply (ih (captureStep q acc pr)).2
      cases hk : pr.2.kind <;> simp [captureStep, hk, h]

/-- A non-empty producer list yields at least one media leg. -/
theorem captureFold_flag_nonempty (q : String)
    (prods : List (String × Producer)) (acc : RecSession × Bool × Bool)
    (h : prods ≠ []) :
    (prods.foldl (captureStep q) acc).2.1 = true ∨
    (prods.foldl (captureStep q) acc).2.2 = true := by
  cases prods with
  | nil => exact absurd rfl h
  | cons pr rest =>
    cases hk : pr.2.kind
    · left
      apply (captureFold_flag_mono q rest (captureStep q acc pr)).1
      simp [captureStep, hk]
    · right
      apply (captureFold_flag_mono q rest (captureStep q acc pr)).2
      simp [captureStep, hk]

/-- `startRecordingForPeer` for one peer leaves no trace attributed to a
different peer. -/
theorem srfp_noTrace (env : RecEnv) (q P : String) (hqP : q ≠ P)
    (pq : Peer) (s : RecSession)
    (h1 : mapGet s.peerRecordings P = none)
    (h2 : mapGet s.processes P = none)
    (h3 : ∀ e ∈ s.transports, e.2 ≠ P)
    (h4 : ∀ e ∈ s.consumers, e.2 ≠ P) :
    mapGet (startRecordingForPeer env q pq s).peerRecordings P = none ∧
    mapGet (startRecordingForPeer env q pq s).processes P = none ∧
    (∀ e ∈ (startRecordingForPeer env q pq s).transports, e.2 ≠ P) ∧
    (∀ e ∈ (startRecordingForPeer env q pq s).consumers, e.2 ≠ P) := by
  unfold startRecordingForPeer
  by_cases hp : pq.producers = []
  · simp only [hp, if_pos]
    exact ⟨h1, h2, h3, h4⟩
  · simp only [if_neg hp]
    have hfix := captureFold_fixed q pq.producers (s, false, false)
    have hown := captureFold_owner q P hqP pq.producers (s, false, false)
      h3 h4
    by_cases hflag :
        (pq.producers.foldl (captureStep q) (s, false, false)).2.1
            = false ∧
          (pq.producers.foldl (captureStep q) (s, false, false)).2.2
            = false
    · simp only [if_pos hflag]
      refine ⟨?_, ?_, hown.1, hown.2⟩
      · rw [hfix.1]; exact h1
      · rw [hfix.2]; exact h2
    · simp only [if_neg hflag]
      by_cases halive : env.ffmpegAliveAfterInit q = false
      · simp only [if_pos halive]
        refine ⟨?_, ?_, hown.1, hown.2⟩
        · show mapGet
            (pq.producers.foldl (captureStep q) (s, false, false)).1.peerRecordings
            P = none
          rw [hfix.1]; exact h1
        · show mapGet (mapSet
            (pq.producers.foldl (captureStep q) (s, false, false)).1.processes
            q ()) P = none
          rw [mapGet_mapSet_ne _ _ _ _ (Ne.symm hqP), hfix.2]
          exact h2
      · simp only [if_neg halive]
        refine ⟨?_, ?_, hown.1, hown.2⟩
        · rw [mapGet_mapSet_ne _ _ _ _ (Ne.symm hqP)]
          show mapGet
            (pq.producers.foldl (captureStep q) (s, false, false)).1.peerRecordings
            P = none
          rw [hfix.1]; exact h1
        · show mapGet (mapSet
            (pq.producers.foldl (captureStep q) (s, false, false)).1.processes
            q ()) P = none
          rw [mapGet_mapSet_ne _ _ _ _ (Ne.symm hqP), hfix.2]
          exact h2

/-- `startStep` leaves no trace of a peer that is skipped (recorder, or
the zero-producer peer) or different. -/
theorem startStep_noTrace (env : RecEnv) (P : String)
    (pp : String × Peer) (s : RecSession)
    (hk : pp.1 = P → pp.2.producers = [])
    (h1 : mapGet s.peerRecordings P = none)
    (h2 : mapGet s.processes P = none)
    (h3 : ∀ e ∈ s.transports, e.2 ≠ P)
    (h4 : ∀ e ∈ s.consumers, e.2 ≠ P) :
    mapGet (startStep env s pp).peerRecordings P = none ∧
    mapGet (startStep env s pp).processes P = none ∧
    (∀ e ∈ (startStep env s pp).transports, e.2 ≠ P) ∧
    (∀ e ∈ (startStep env s pp).consumers, e.2 ≠ P) := by
  unfold startStep
  by_cases hr : pp.2.isRecorder = true
  · simp only [hr, if_pos]
    exact ⟨h1, h2, h3, h4⟩
  · have hr' : pp.2.isRecorder = false := by
      cases hb : pp.2.isRecorder
      · rfl
      · exact absurd hb hr
    simp only [hr', Bool.false_eq_true, if_neg, not_false_eq_true]
    by_cases hpe : pp.1 = P
    · have hprod := hk hpe
      unfold startRecordingForPeer
      simp only [hprod, if_pos]
      exact ⟨h1, h2, h3, h4⟩
    · exact srfp_noTrace env pp.1 P hpe pp.2 s h1 h2 h3 h4

/-- The whole peer loop leaves no trace of the zero-producer peer. -/
theorem startFold_noTrace (env : RecEnv) (P : String)
    (peers : List (String × Peer)) (s : RecSession)
    (hkeys : ∀ pp ∈ peers, pp.1 = P → pp.2.producers = [])
    (h1 : mapGet s.peerRecordings P = none)
    (h2 : mapGet s.processes P = none)
    (h3 : ∀ e ∈ s.transports, e.2 ≠ P)
    (h4 : ∀ e ∈ s.consumers, e.2 ≠ P) :
    mapGet (peers.foldl (startStep env) s).peerRecordings P = none ∧
    mapGet (peers.foldl (startStep env) s).processes P = none ∧
    (∀ e ∈ (peers.foldl (startStep env) s).transports, e.2 ≠ P) ∧
    (∀ e ∈ (peers.foldl (startStep env) s).consumers, e.2 ≠ P) := by
  revert hkeys
  revert s
  induction peers with
  | nil =>
    intro s h1 h2 h3 h4 hkeys
    exact ⟨h1, h2, h3, h4⟩
  | cons pp rest ih =>
    intro s h1 h2 h3 h4 hkeys
    obtain ⟨g1, g2, g3, g4⟩ := startStep_noTrace env P pp s
      (hkeys pp (List.mem_cons_self _ _)) h1 h2 h3 h4
    exact ih (startStep env s pp) g1 g2 g3 g4
      (fun x hx => hkeys x (List.mem_cons_of_mem _ hx))

/-- A peer with producers whose FFmpeg child survives initialization gets
its `PeerRecording` registered. -/
theorem srfp_presence (env : RecEnv) (q : String) (pq : Peer)
    (s : RecSession) (hprod : pq.producers ≠ [])
    (halive : env.ffmpegAliveAfterInit q = true) :
    (mapGet (startRecordingForPeer env q pq s).peerRecordings q).isSome
      = true := by
  unfold startRecordingForPeer
  simp only [if_neg hprod]
  have hflag : ¬
      ((pq.producers.foldl (captureStep q) (s, false, false)).2.1
          = false ∧
        (pq.producers.foldl (captureStep q) (s, false, false)).2.2
          = false) := by
    rintro ⟨ha, hb⟩
    rcases captureFold_flag_nonempty q pq.producers (s, false, false)
        hprod with h | h
    · rw [ha] at h; exact absurd h (by simp)
    · rw [hb] at h; exact absurd h (by simp)
  simp only [if_neg hflag]
  have halive' : ¬ env.ffmpegAliveAfterInit q = false := by
    rw [halive]; simp
  simp only [if_neg halive']
  rw [mapGet_mapSet_self]
  rfl

/-- `startRecordingForPeer` for any peer never removes an existing
`PeerRecording`. -/
theorem srfp_presence_mono (env : RecEnv) (q' : String) (pq' : Peer)
    (s : RecSession) (q : String)
    (h : (mapGet s.peerRecordings q).isSome = true) :
    (mapGet (startRecordingForPeer env q' pq' s).peerRecordings q).isSome
      = true := by
  unfold startRecordingForPeer
  by_cases hp : pq'.producers = []
  · simp only [hp, if_pos]
    exact h
  · simp only [if_neg hp]
    have hfix := captureFold_fixed q' pq'.producers (s, false, false)
    by_cases hflag :
        (pq'.producers.foldl (captureStep q') (s, false, false)).2.1
            = false ∧
          (pq'.producers.foldl (captureStep q') (s, false, false)).2.2
            = false
    · simp only [if_pos hflag]
      rw [hfix.1]
      exact h
    · simp only [if_neg hflag]
      by_cases halive : env.ffmpegAliveAfterInit q' = false
      · simp only [if_pos halive]
        show (mapGet
          (pq'.producers.foldl (captureStep q') (s, false, false)).1.peerRecordings
          q).isSome = true
        rw [hfix.1]
        exact h
      · simp only [if_neg halive]
        apply mapGet_isSome_mapSet
        show (mapGet
          (pq'.producers.foldl (captureStep q') (s, false, false)).1.peerRecordings
          q).isSome = true
        rw [hfix.1]
        exact h

/-- `startStep` never removes an existing `PeerRecording`. -/
theorem startStep_presence_mono (env : RecEnv) (s : RecSession)
    (pp : String × Peer) (q : String)
    (h : (mapGet s.peerRecordings q).isSome = true) :
    (mapGet (startStep env s pp).peerRecordings q).isSome = true := by
  unfold startStep
  by_cases hr : pp.2.isRecorder = true
  · simp only [hr, if_pos]
    exact h
  · have hr' : pp.2.isRecorder = false := by
      cases hb : pp.2.isRecorder
      · rfl
      · exact absurd hb hr
    simp only [hr', Bool.false_eq_true, if_neg, not_false_eq_true]
    exact srfp_presence_mono env pp.1 pp.2 s q h

/-- Nor does the rest of the peer loop. -/
theorem startFold_presence_mono (env : RecEnv)
    (peers : List (String × Peer)) (s : RecSession) (q : String)
    (h : (mapGet s.peerRecordings q).isSome = true) :
    (mapGet (peers.foldl (startStep env) s).peerRecordings q).isSome
      = true := by
  induction peers generalizing s with
  | nil => exact h
  | cons pp rest ih =>
    exact ih (startStep env s pp) (startStep_presence_mono env s pp q h)

/-- Every non-recorder peer with producers and a surviving FFmpeg child
ends up with a registered `PeerRecording` after the peer loop. -/
theorem startFold_presence (env : RecEnv)
    (peers : List (String × Peer)) (s : RecSession) (pp : String × Peer)
    (hmem : pp ∈ peers) (hrec : pp.2.isRecorder = false)
    (hprod : pp.2.producers ≠ [])
    (halive : env.ffmpegAliveAfterInit pp.1 = true) :
    (mapGet (peers.foldl (startStep env) s).peerRecordings pp.1).isSome
      = true := by
  obtain ⟨l1, l2, rfl⟩ := List.append_of_mem hmem
  rw [List.foldl_append, List.foldl_cons]
  apply startFold_presence_mono
  show (mapGet (startStep env (l1.foldl (startStep env) s) pp).peerRecordings
    pp.1).isSome = true
  unfold startStep
  simp only [hrec, Bool.false_eq_true, if_neg, not_false_eq_true]
  exact srfp_presence env pp.1 pp.2 _ hprod halive

/-- **C6** (confirmed).  When `startRecording` runs on a room containing
a non-recorder peer with zero producers, that peer is skipped without
error: the call succeeds; no per-peer recording, no FFmpeg process, no
capture transport and no recording consumer attributed to that peer is
created; the peer is absent from the file list returned by a subsequent
`stopRecording`; and every other (non-recorder) peer that has producers
— and whose FFmpeg child survives initialization — gets its
`PeerRecording` registered. -/
theorem claim_C6_zero_producer_skip (env : RecEnv) (sessions : RecState)
    (roomId startedBy : String) (rooms : List (String × Room))
    (now t2 : Nat) (room : Room) (pre post : List (String × Peer))
    (pid : String) (peer : Peer)
    (hroom : mapGet rooms roomId = some room)
    (hsplit : room.peers = pre ++ (pid, peer) :: post)
    (hprod : peer.producers = [])
    (hkeys : ∀ pp ∈ pre ++ post, pp.1 ≠ pid)
    (hnot : mapHas sessions roomId = false) :
    ∃ session,
      (startRecording env sessions roomId startedBy rooms now).2 =
        Except.ok session ∧
      mapGet session.peerRecordings pid = none ∧
      mapGet session.processes pid = none ∧
      (∀ e ∈ session.transports, e.2 ≠ pid) ∧
      (∀ e ∈ session.consumers, e.2 ≠ pid) ∧
      (∀ res, (stopRecording env
          (startRecording env sessions roomId startedBy rooms now).1
          roomId t2).2 = Except.ok res →
        ∀ f ∈ res.files, f.peerId ≠ pid) ∧
      (∀ pp ∈ pre ++ post, pp.2.isRecorder = false →
        pp.2.producers ≠ [] → env.ffmpegAliveAfterInit pp.1 = true →
          (mapGet session.peerRecordings pp.1).isSome = true) := by
  have hnot' : (mapHas sessions roomId = true) = False := by
    simp [hnot]
  have hstart2 : (startRecording env sessions roomId startedBy rooms
      now).2 = Except.ok (room.peers.foldl (startStep env)
        ⟨s!"{roomId}-{now}", roomId, now, startedBy, [], [], [], [], []⟩) := by
    simp [startRecording, hroom, hnot']
  have hstart1 : (startRecording env sessions roomId startedBy rooms
      now).1 = mapSet sessions roomId (room.peers.foldl (startStep env)
        ⟨s!"{roomId}-{now}", roomId, now, startedBy, [], [], [], [], []⟩) := by
    simp [startRecording, hroom, hnot']
  have hkeys' : ∀ pp ∈ room.peers, pp.1 = pid → pp.2.producers = [] := by
    rw [hsplit]
    intro pp hpp
    rcases List.mem_append.mp hpp with h | h
    · intro he
      exact absurd he (hkeys pp (List.mem_append_left _ h))
    · rcases List.mem_cons.mp h with h' | h'
      · intro _
        rw [h']
        exact hprod
      · intro he
        exact absurd he (hkeys pp (List.mem_append_right _ h'))
  obtain ⟨n1, n2, n3, n4⟩ := startFold_noTrace env pid room.peers
    ⟨s!"{roomId}-{now}", roomId, now, startedBy, [], [], [], [], []⟩
    hkeys' rfl rfl
    (fun e he => absurd he (List.not_mem_nil e))
    (fun e he => absurd he (List.not_mem_nil e))
  refine ⟨_, hstart2, n1, n2, n3, n4, ?_, ?_⟩
  · intro res hres
    have hsome : mapGet (startRecording env sessions roomId startedBy
        rooms now).1 roomId = some (room.peers.foldl (startStep env)
          ⟨s!"{roomId}-{now}", roomId, now, startedBy, [], [], [], [],
            []⟩) := by
      rw [hstart1]
      exact mapGet_mapSet_self _ _ _
    have hstop : (stopRecording env (startRecording env sessions roomId
        startedBy rooms now).1 roomId t2).2 = Except.ok
          { recordingId := (room.peers.foldl (startStep env)
              ⟨s!"{roomId}-{now}", roomId, now, startedBy, [], [], [],
                [], []⟩).recordingId
            files := (room.peers.foldl (startStep env)
              ⟨s!"{roomId}-{now}", roomId, now, startedBy, [], [], [],
                [], []⟩).peerRecordings.filterMap (fun pr =>
                  match env.fileSize pr.2.outputPath with
                  | some size =>
                    some { peerId := pr.1
                           username := pr.2.username
                           file := pr.2.outputPath
                           size := size }
                  | none => none)
            metadata :=
              { recordingId := (room.peers.foldl (startStep env)
                  ⟨s!"{roomId}-{now}", roomId, now, startedBy, [], [],
                    [], [], []⟩).recordingId
                roomId := roomId
                startedAt := (room.peers.foldl (startStep env)
                  ⟨s!"{roomId}-{now}", roomId, now, startedBy, [], [],
                    [], [], []⟩).startedAt
                endedAt := t2
                startedBy := (room.peers.foldl (startStep env)
                  ⟨s!"{roomId}-{now}", roomId, now, startedBy, [], [],
                    [], [], []⟩).startedBy
                files := (room.peers.foldl (startStep env)
                  ⟨s!"{roomId}-{now}", roomId, now, startedBy, [], [],
                    [], [], []⟩).peerRecordings.filterMap (fun pr =>
                      match env.fileSize pr.2.outputPath with
                      | some size =>
                        some { peerId := pr.1
                               username := pr.2.username
                               file := pr.2.outputPath
                               size := size }
                      | none => none)
                transcripts := (room.peers.foldl (startStep env)
                  ⟨s!"{roomId}-{now}", roomId, now, startedBy, [], [],
                    [], [], []⟩).transcripts } } := by
      simp [stopRecording, hsome]
    rw [hstop] at hres
    injection hres with hres
    subst hres
    intro f hf
    simp only at hf
    obtain ⟨pr, hpr, hg⟩ := List.mem_filterMap.mp hf
    have hne := mapGet_none_forall n1 pr hpr
    cases hsz : env.fileSize pr.2.outputPath with
    | none =>
      rw [hsz] at hg
      simp at hg
    | some sz =>
      rw [hsz] at hg
      simp only [Option.some.injEq] at hg
      subst hg
      simpa using hne
  · intro pp hpp hrec hprodq halive
    refine startFold_presence env room.peers _ pp ?_ hrec hprodq halive
    rw [hsplit]
    rcases List.mem_append.mp hpp with h | h
    · exact List.mem_append_left _ h
    · exact List.mem_append_right _ (List.mem_cons_of_mem _ h)

/-- Witness for C6: room with `alice` (one audio producer), `zoe` (no
producers) and a recorder; recording starts, `zoe` leaves no trace,
`alice` is captured. -/
theorem claim_C6_zero_producer_skip_witness :
    ∃ session,
      (startRecording ⟨fun _ => true, fun _ => some 10⟩ [] "r1" "alice"
          [("r1", ⟨none, some "a",
            [("a", ⟨"alice", [], [("p1", ⟨MKind.audio⟩)], [], 1, false,
              true⟩),
             ("z", ⟨"zoe", [], [], [], 2, false, false⟩),
             ("rr", ⟨"Rec", [], [], [], 3, true, false⟩)],
            "S", 1, false⟩)] 4).2 = Except.ok session ∧
      mapGet session.peerRecordings "z" = none ∧
      mapGet session.processes "z" = none ∧
      (mapGet session.peerRecordings "a").isSome = true := by
  obtain ⟨session, hok, hn1, hn2, hn3, hn4, hstop, hpres⟩ :=
    claim_C6_zero_producer_skip ⟨fun _ => true, fun _ => some 10⟩ []
      "r1" "alice"
      [("r1", ⟨none, some "a",
        [("a", ⟨"alice", [], [("p1", ⟨MKind.audio⟩)], [], 1, false,
          true⟩),
         ("z", ⟨"zoe", [], [], [], 2, false, false⟩),
         ("rr", ⟨"Rec", [], [], [], 3, true, false⟩)],
        "S", 1, false⟩)] 4 99
      ⟨none, some "a",
        [("a", ⟨"alice", [], [("p1", ⟨MKind.audio⟩)], [], 1, false,
          true⟩),
         ("z", ⟨"zoe", [], [], [], 2, false, false⟩),
         ("rr", ⟨"Rec", [], [], [], 3, true, false⟩)],
        "S", 1, false⟩
      [("a", ⟨"alice", [], [("p1", ⟨MKind.audio⟩)], [], 1, false, true⟩)]
      [("rr", ⟨"Rec", [], [], [], 3, true, false⟩)]
      "z" ⟨"zoe", [], [], [], 2, false, false⟩
      rfl rfl rfl (by decide) rfl
  exact ⟨session, hok, hn1, hn2,
    hpres ("a", ⟨"alice", [], [("p1", ⟨MKind.audio⟩)], [], 1, false,
      true⟩) (by decide) rfl (by decide) rfl⟩

end VideoCall
